import Mathlib

/-!
# Verification of `update_employees.py` (atd-knack-banner)

A shallow embedding of the employee-reconciliation script that syncs HR
("banner") records into a Knack application.  Python dictionaries are
modelled as association lists from `String` keys to `Value`s; a fatal
Python exception (`KeyError` on a record lookup, `TypeError` on indexing
a non-dict, `IndexError` on list indexing) is modelled by `Option`,
with `Option.none` standing for the uncaught exception.  Python string
operations (`split`, `strip`, `lower`, slicing) are re-implemented on
`List Char` so that every definition is executable by kernel reduction.
-/

set_option autoImplicit false

namespace KnackBanner

/-- Python whitespace test for the characters that occur in this data
(`str.split()` / `str.strip()` split and strip on whitespace). -/
def pyIsSpace (c : Char) : Bool :=
  c = ' ' || c = '\t' || c = '\n' || c = '\r'

/-- Split a character list at every character satisfying `p`, keeping
empty segments — the behaviour of Python `str.split(sep)` for a
one-character separator. -/
def splitChAux (p : Char → Bool) : List Char → List Char → List (List Char)
  | [], acc => [acc.reverse]
  | c :: cs, acc =>
    if p c then acc.reverse :: splitChAux p cs []
    else splitChAux p cs (c :: acc)

/-- Python `s.split(sep)` for a single-character separator `sep`:
splits at every occurrence, keeping empty segments. -/
def pySplitOn (sep : Char) (s : String) : List String :=
  (splitChAux (fun c => c = sep) s.data []).map String.mk

/-- Python `s.split()` (no argument): split on whitespace runs,
discarding empty segments. -/
def pySplitWs (s : String) : List String :=
  ((splitChAux pyIsSpace s.data []).filter (fun l => l ≠ [])).map String.mk

/-- Python `s.strip()`: remove leading and trailing whitespace. -/
def pyStrip (s : String) : String :=
  String.mk (((s.data.dropWhile pyIsSpace).reverse.dropWhile pyIsSpace).reverse)

/-- Python `s.lower()` (ASCII case fold, which is all this data uses). -/
def pyLower (s : String) : String :=
  String.mk (s.data.map Char.toLower)

/-- Python `s[:-1]`: drop the final character (identity on `""`). -/
def pyDropLast (s : String) : String :=
  String.mk s.data.dropLast

/-- Python `s.replace(' ', '')`: remove every space character
(only the space character, not other whitespace). -/
def pyRemoveSpaces (s : String) : String :=
  String.mk (s.data.filter (fun c => c ≠ ' '))

/-- A Python value as it occurs in this script's records: strings,
numbers, booleans, `None`, lists of strings (the Knack role field) and
flat string-valued dictionaries (the email / name / date sub-values). -/
inductive Value where
  | str : String → Value
  | nat : Nat → Value
  | bool : Bool → Value
  | none : Value
  | list : List String → Value
  | dict : List (String × String) → Value
deriving DecidableEq, Repr

/-- Python truthiness (`not x` in the source tests it): empty string,
zero, `False`, `None`, empty list and empty dict are falsy. -/
def truthy : Value → Bool
  | .str s => s ≠ ""
  | .nat n => n ≠ 0
  | .bool b => b
  | .none => false
  | .list l => l ≠ []
  | .dict d => d ≠ []

/-- Python `str(v)` for the value shapes above (used on the primary key
and in the error report). -/
def pyStr : Value → String
  | .str s => s
  | .nat n => toString n
  | .bool b => if b then "True" else "False"
  | .none => "None"
  | .list l => toString l
  | .dict d => toString d

/-- A record (Python `dict` keyed by field-name strings), as an
association list in insertion order. -/
abbrev Record := List (String × Value)

/-- Lookup `r[k]` as a total function: `Option.none` models a `KeyError`. -/
def Record.get? (r : Record) (k : String) : Option Value :=
  match r with
  | [] => Option.none
  | (k', v) :: rest => if k' = k then some v else Record.get? rest k

/-- Assignment `r[k] = v`: replace the value at `k` in place, or append the new
key at the end — the insertion-order semantics of a Python dict. -/
def Record.set (r : Record) (k : String) (v : Value) : Record :=
  match r with
  | [] => [(k, v)]
  | (k', v') :: rest =>
    if k' = k then (k, v) :: rest else (k', v') :: Record.set rest k v

/-- Lookup in a flat string-valued sub-dictionary (`d[k]`). -/
def dictGet? (d : List (String × String)) (k : String) : Option String :=
  match d with
  | [] => Option.none
  | (k', v) :: rest => if k' = k then some v else dictGet? rest k

/-- Assignment in a flat string-valued sub-dictionary (`d[k] = v`). -/
def dictSet (d : List (String × String)) (k : String) (v : String) :
    List (String × String) :=
  match d with
  | [] => [(k, v)]
  | (k', v') :: rest =>
    if k' = k then (k, v) :: rest else (k', v') :: dictSet rest k v

/-! ## Field transforms (`parse_name`, `to_email`, `format_date`) -/

/-- Source `months_dict`: the fixed month-name-to-number table. -/
def months_dict : List (String × String) :=
  [("January", "01"), ("February", "02"), ("March", "03"), ("April", "04"),
   ("May", "05"), ("June", "06"), ("July", "07"), ("August", "08"),
   ("September", "09"), ("October", "10"), ("November", "11"),
   ("December", "12")]

/-- Source `parse_name(full_name)`: `full_name.split(",")`, then
`{"first": parts[1].strip(), "last": parts[0].strip()}`.
`Option.none` models the `IndexError` raised when the input has no
comma (fewer than two segments). -/
def parse_name (full_name : String) : Option Value :=
  match pySplitOn ',' full_name with
  | p0 :: p1 :: _ => some (Value.dict [("first", pyStrip p1), ("last", pyStrip p0)])
  | _ => Option.none

/-- Source `to_email(val)`: `{"email": val.lower()}`. -/
def to_email (val : String) : Value :=
  Value.dict [("email", pyLower val)]

/-- Source `format_date(val)`: split on whitespace, strip the trailing comma
from the month word, look it up in `months_dict`, and rebuild as
`{"date": "MM/DD/YYYY"}`.  `Option.none` models the `KeyError` for an
unknown month and the `IndexError` for too few pieces. -/
def format_date (val : String) : Option Value :=
  match pySplitWs val with
  | p0 :: p1 :: p2 :: _ =>
    match dictGet? months_dict (pyDropLast p0) with
    | some month => some (Value.dict [("date", month ++ "/" ++ p1 ++ "/" ++ p2)])
    | Option.none => Option.none
  | _ => Option.none

/-! ## Directory cross-reference (`update_emails`) -/

/-- One row of the CTM email directory (`get_emails_data` stores
`{"email": ..., "name": ...}` under the employee id string). -/
structure DirEntry where
  email : String
  name : String
deriving DecidableEq, Repr

/-- Directory lookup (`employee_emails[str(pk_hr)]`), first match. -/
def dirGet? (d : List (String × DirEntry)) (k : String) : Option DirEntry :=
  match d with
  | [] => Option.none
  | (k', v) :: rest => if k' = k then some v else dirGet? rest k

/-- The body of the `update_emails` loop for one banner record.
`r_hr["pidm"]` is read outside the `try`, so a missing `pidm` is fatal
(`Option.none`).  Inside the `try`, a `KeyError` — from the directory
lookup or from `r_hr["email"]` — is caught and counted.  Returns the
(possibly updated) record and the not-found increment (0 or 1). -/
def update_email_one (employee_emails : List (String × DirEntry))
    (r_hr : Record) : Option (Record × Nat) := do
  let pk_hr ← r_hr.get? "pidm"
  match dirGet? employee_emails (pyStr pk_hr) with
  | Option.none => pure (r_hr, 1)
  | some employee =>
    match r_hr.get? "email" with
    | Option.none => pure (r_hr, 1)
    | some cur =>
      if cur ≠ Value.str employee.email ∧ employee.email.length > 0 then
        pure (r_hr.set "email" (Value.str employee.email), 0)
      else
        pure (r_hr, 0)

/-- Source `update_emails(records_hr, employee_emails)`: runs the loop body on
every record in order; returns the updated records together with the
`in_banner_no_email` counter that the source logs. -/
def update_emails (records_hr : List Record)
    (employee_emails : List (String × DirEntry)) : Option (List Record × Nat) :=
  match records_hr with
  | [] => some ([], 0)
  | r :: rest => do
    let (r', c) ← update_email_one employee_emails r
    let (rest', c') ← update_emails rest employee_emails
    pure (r' :: rest', c + c')

/-! ## Placeholder email synthesis (`create_placeholder_email`) -/

/-- Source `create_placeholder_email(record, name_field)`:
`first = record[name_field]["first"].split()[0]`, then
`f"{first}.{record[name_field]['last']}@austintexas.gov".replace(' ', '')`.
`Option.none` models the `KeyError`/`TypeError`/`IndexError` paths
(missing name field, non-dict name value, missing sub-keys, or a
first name that is all whitespace). -/
def create_placeholder_email (record : Record) (name_field : String) :
    Option String := do
  let nv ← record.get? name_field
  match nv with
  | Value.dict d => do
    let first_full ← dictGet? d "first"
    let last ← dictGet? d "last"
    match pySplitWs first_full with
    | first_name :: _ =>
      pure (pyRemoveSpaces (first_name ++ "." ++ last ++ "@austintexas.gov"))
    | [] => Option.none
  | _ => Option.none

/-! ## Record diffing (`is_different`) -/

/-- The inner loop of `is_different` over a dict-valued field: compare
element-wise at the keys of the banner sub-value `d`; a missing key in
the knack sub-value is a fatal `KeyError` (`Option.none`); short-circuit
at the first mismatching element. -/
def subDiff (d : List (String × String)) (dk : List (String × String)) :
    Option Bool :=
  match d with
  | [] => some false
  | (k, v) :: rest => do
    let vk ← dictGet? dk k
    if vk ≠ v then some true else subDiff rest dk

/-- Source `is_different(record_hr, record_knack)`: walk the banner record's
fields in insertion order; a dict value is compared element-wise on its
own keys (extra knack keys ignored), a scalar by direct inequality;
return at the first mismatch.  `Option.none` models the fatal
`KeyError` (field or sub-key absent from the knack record) and the
`TypeError` (indexing a non-dict knack value with a sub-key). -/
def is_different (record_hr record_knack : Record) : Option Bool :=
  match record_hr with
  | [] => some false
  | (key, val) :: rest => do
    let val_knack ← record_knack.get? key
    match val with
    | Value.dict d =>
      match d with
      | [] => is_different rest record_knack
      | _ =>
        match val_knack with
        | Value.dict dk => do
          let r ← subDiff d dk
          if r then some true else is_different rest record_knack
        | _ => Option.none
    | _ =>
      if val_knack ≠ val then some true else is_different rest record_knack

/-! ## Payload sanitizer (`remove_empty_emails`) -/

/-- Whether one payload item survives `remove_empty_emails`: kept
unless its email sub-value is exactly `"no email"`.  A `KeyError`
(missing email field, or missing `"email"` sub-key) is caught and the
item kept — that is how deactivation payloads pass through.  A
`TypeError` (email field present but not a dict) is uncaught:
`Option.none`. -/
def keep_payload_item (email_field : String) (r : Record) : Option Bool :=
  match r.get? email_field with
  | Option.none => some true
  | some (Value.dict d) =>
    match dictGet? d "email" with
    | Option.none => some true
    | some e => some (e ≠ "no email")
  | some _ => Option.none

/-- Source `remove_empty_emails(payload, email_field, name_field)`: filter the
payload by `keep_payload_item` (the `name_field` parameter is only used
for logging in the source). -/
def remove_empty_emails (payload : List Record)
    (email_field name_field : String) : Option (List Record) :=
  match payload with
  | [] => some []
  | r :: rest => do
    let keep ← keep_payload_item email_field r
    let rest' ← remove_empty_emails rest email_field name_field
    pure (if keep then r :: rest' else rest')

/-! ## Error formatter (`format_errors`) -/

/-- The comprehension `[e["message"] for e in error_list]`: each entry must carry a
`"message"` key holding a string (a missing key is a `KeyError`, and a
non-string message would make `"\n".join` raise a `TypeError`). -/
def collect_messages (error_list : List Record) : Option (List String) :=
  match error_list with
  | [] => some []
  | e :: rest => do
    match e.get? "message" with
    | some (Value.str m) => do
      let ms ← collect_messages rest
      pure (m :: ms)
    | _ => Option.none

/-- Source `format_errors(error_list, record)`: ten dashes, the joined
messages, and the stringified record values, in the source's exact
f-string layout. -/
def format_errors (error_list : List Record) (record : Record) :
    Option String := do
  let msgs ← collect_messages error_list
  let sep := String.mk (List.replicate 10 '-')
  let record_props := String.intercalate "\n" (record.map (fun p => pyStr p.2))
  pure (sep ++ "\nError(s):\n" ++ String.intercalate "\n" msgs ++
        "\n\nData:\n" ++ record_props ++ "\n\n")

/-! ## Reconciliation engine (`build_payload`)

`build_payload` takes nine Knack field-name parameters; they are packed
into a configuration structure.  The call to `random_password()` is
modelled by the parameter `pw` (the source draws each character from a
CSPRNG, so the generated string is an arbitrary value supplied from
outside), and the module-level `today` constant by the parameter
`today`. -/

/-- The Knack field names passed to `build_payload`. -/
structure Cfg where
  pk_field : String
  status_field : String
  password_field : String
  created_date_field : String
  class_field : String
  separated_field : String
  user_role_field : String
  email_field : String
  name_field : String
deriving DecidableEq, Repr

/-- The field names of `Cfg`, together with the Knack-assigned `"id"`
key, are pairwise distinct — true of the actual configuration
(`field_99`, `field_20`, `field_19`, `field_267`, `field_95`,
`field_402`, `field_21`, `field_18`, `field_17`). -/
def Cfg.distinct (cfg : Cfg) : Bool :=
  ([cfg.pk_field, cfg.status_field, cfg.password_field,
    cfg.created_date_field, cfg.class_field, cfg.separated_field,
    cfg.user_role_field, cfg.email_field, cfg.name_field, "id"] :
      List String).Nodup

/-- The configuration for the `hr` Knack app, from the module-level
field tables of the source. -/
def hrCfg : Cfg :=
  { pk_field := "field_99", status_field := "field_20",
    password_field := "field_19", created_date_field := "field_267",
    class_field := "field_95", separated_field := "field_402",
    user_role_field := "field_21", email_field := "field_18",
    name_field := "field_17" }

/-- Expression `r[email_field]["email"]`: `Option.none` models
the `KeyError` (field or sub-key missing) or `TypeError` (field not a
dict). -/
def getEmailSub (r : Record) (email_field : String) : Option String := do
  match ← r.get? email_field with
  | Value.dict d => dictGet? d "email"
  | _ => Option.none

/-- Statement `r[email_field]["email"] = v`: `r[email_field]` must
exist and be a dict (else `KeyError`/`TypeError`), and the sub-key is
assigned in place. -/
def setEmailSub (r : Record) (email_field : String) (v : String) :
    Option Record := do
  match ← r.get? email_field with
  | Value.dict d => some (r.set email_field (Value.dict (dictSet d "email" v)))
  | _ => Option.none

/-- The inner `for r_knack in records_knack` scan of the first loop:
read each knack record's primary key until one equals `pk_hr`
(`break`), returning that record; `some Option.none` means the scan
completed with no match, `Option.none` a fatal `KeyError` reading a
primary key on the way. -/
def find_knack_match (pk_field : String) (pk_hr : Value) :
    List Record → Option (Option Record)
  | [] => some Option.none
  | r_knack :: rest => do
    let pk_knack ← r_knack.get? pk_field
    if pk_knack = pk_hr then pure (some r_knack)
    else find_knack_match pk_field pk_hr rest

/-- What one banner record contributes in the first loop of
`build_payload`: its final (mutated) state, the payload entries it
appended (zero or one), and its `result["updates"]` /
`result["additions"]` entries. -/
structure HrStep where
  record : Record
  ops : List Record
  updates : List Value
  additions : List Value
deriving DecidableEq, Repr

/-- The mutation prefix of the matched arm of `build_payload`'s first
loop (source lines `r_hr["id"] = r_knack["id"]` and the status flip):
carry over the knack `id`, and flip the status to `"active"` when the
knack status is `"inactive"` and the separated flag is falsy (the `and`
short-circuits, so the separated field is only read when the status is
`"inactive"`). -/
def matched_mutate (cfg : Cfg) (r_hr r_knack : Record) : Option Record := do
  let kid ← r_knack.get? "id"
  let r1 := r_hr.set "id" kid
  let kstatus ← r_knack.get? cfg.status_field
  let flip ←
    if kstatus = Value.str "inactive" then do
      let ksep ← r_knack.get? cfg.separated_field
      pure (!(truthy ksep))
    else pure false
  pure (if flip then r1.set cfg.status_field (Value.str "active") else r1)

/-- The emission suffix of the matched arm: emit an update exactly when
`is_different` holds on the mutated banner record, substituting the
knack email for a `"no email"` sentinel. -/
def matched_emit (cfg : Cfg) (r2 r_knack : Record) : Option HrStep := do
  let d ← is_different r2 r_knack
  if d then do
    let em ← getEmailSub r2 cfg.email_field
    let r3 ←
      if em = "no email" then do
        let kem ← getEmailSub r_knack cfg.email_field
        setEmailSub r2 cfg.email_field kem
      else pure r2
    let nm ← r3.get? cfg.name_field
    pure ⟨r3, [r3], [nm], []⟩
  else
    pure ⟨r2, [], [], []⟩

/-- The matched arm of `build_payload`'s first loop, translated
statement by statement. -/
def process_matched (cfg : Cfg) (r_hr r_knack : Record) : Option HrStep := do
  let r2 ← matched_mutate cfg r_hr r_knack
  matched_emit cfg r2 r_knack

/-- The mutation prefix of the unmatched (new hire) arm: generate a
password, activate, stamp the creation date, and assign the default
Staff role. -/
def new_mutate (cfg : Cfg) (today pw : String) (r_hr : Record) : Record :=
  ((((r_hr.set cfg.password_field (Value.str pw)).set
    cfg.status_field (Value.str "active")).set
    cfg.created_date_field (Value.str today)).set
    cfg.user_role_field (Value.list ["profile_7"]))

/-- The emission suffix of the unmatched arm: synthesize a placeholder
email when the email is the `"no email"` sentinel, and emit the record
as an addition. -/
def new_emit (cfg : Cfg) (r1 : Record) : Option HrStep := do
  let em ← getEmailSub r1 cfg.email_field
  let r2 ←
    if em = "no email" then do
      let pe ← create_placeholder_email r1 cfg.name_field
      setEmailSub r1 cfg.email_field pe
    else pure r1
  let nm ← r2.get? cfg.name_field
  pure ⟨r2, [r2], [], [nm]⟩

/-- The unmatched (new hire) arm of `build_payload`'s first loop. -/
def process_new (cfg : Cfg) (today pw : String) (r_hr : Record) :
    Option HrStep :=
  new_emit cfg (new_mutate cfg today pw r_hr)

/-- The body of `build_payload`'s first loop for one banner record
`r_hr`: look for a knack record with the same primary key and run the
matched or the new-hire arm. -/
def process_hr (cfg : Cfg) (today pw : String) (records_knack : List Record)
    (r_hr : Record) : Option HrStep := do
  let pk_hr ← r_hr.get? cfg.pk_field
  match ← find_knack_match cfg.pk_field pk_hr records_knack with
  | some r_knack => process_matched cfg r_hr r_knack
  | Option.none => process_new cfg today pw r_hr

/-- The accumulated outcome of `build_payload`'s first loop: the
mutated banner records (the Python loop mutates the dicts in
`records_hr` in place), the payload so far, and the two summary
lists. -/
structure Phase1Out where
  records : List Record
  ops : List Record
  updates : List Value
  additions : List Value
deriving DecidableEq, Repr

/-- The first loop of `build_payload`, record by record. -/
def phase1 (cfg : Cfg) (today pw : String) (records_knack : List Record) :
    List Record → Option Phase1Out
  | [] => some ⟨[], [], [], []⟩
  | r_hr :: rest => do
    let s ← process_hr cfg today pw records_knack r_hr
    let out ← phase1 cfg today pw records_knack rest
    pure ⟨s.record :: out.records, s.ops ++ out.ops,
      s.updates ++ out.updates, s.additions ++ out.additions⟩

/-- The inner `for r_hr in records_hr` scan of the second loop: does
some banner record carry the knack record's primary key?  Fatal
`KeyError` on a banner primary key is `Option.none`. -/
def hr_has_match (pk_field : String) (pk_knack : Value) :
    List Record → Option Bool
  | [] => some false
  | r_hr :: rest => do
    let pk_hr ← r_hr.get? pk_field
    if pk_hr = pk_knack then pure true
    else hr_has_match pk_field pk_knack rest

/-- What one knack record contributes in the second loop of
`build_payload`: the deactivation payload entries it appended (zero or
one) and its `result["inactivate"]` entries. -/
structure KnackStep where
  ops : List Record
  inactivate : List Value
deriving DecidableEq, Repr

/-- The body of `build_payload`'s second loop for one knack record,
with the `and` chain short-circuiting exactly as in the source: the
status field is only read when unmatched, the class field only when
the status is not `"inactive"`, and `r_knack["id"]` /
`r_knack[name_field]` only when the whole condition holds. -/
def process_knack (cfg : Cfg) (records_hr : List Record)
    (r_knack : Record) : Option KnackStep := do
  let pk_knack ← r_knack.get? cfg.pk_field
  let matched ← hr_has_match cfg.pk_field pk_knack records_hr
  if matched then pure ⟨[], []⟩
  else do
    let kstatus ← r_knack.get? cfg.status_field
    if kstatus = Value.str "inactive" then pure ⟨[], []⟩
    else do
      let kclass ← r_knack.get? cfg.class_field
      if kclass = Value.str "Contract" then pure ⟨[], []⟩
      else do
        let record_id ← r_knack.get? "id"
        let nm ← r_knack.get? cfg.name_field
        pure ⟨[Record.set (Record.set [] "id" record_id) cfg.status_field
          (Value.str "inactive")], [nm]⟩

/-- The second loop of `build_payload`, knack record by knack record.
It scans the banner records as left by the first loop (the Python loop
reads the same, mutated, dict objects). -/
def phase2 (cfg : Cfg) (records_hr : List Record) :
    List Record → Option (List Record × List Value)
  | [] => some ([], [])
  | r_knack :: rest => do
    let s ← process_knack cfg records_hr r_knack
    let (ops, inact) ← phase2 cfg records_hr rest
    pure (s.ops ++ ops, s.inactivate ++ inact)

/-- The value of `result` after `build_payload`, plus the returned
payload. -/
structure BuildResult where
  payload : List Record
  updates : List Value
  additions : List Value
  inactivate : List Value
deriving DecidableEq, Repr

/-- Source `build_payload(records_knack, records_hr, ...)`: the first loop
over the banner records, then the deactivation loop over the knack
records (scanning the mutated banner records), appending its
operations after the first loop's. -/
def build_payload (cfg : Cfg) (today pw : String)
    (records_knack records_hr : List Record) : Option BuildResult := do
  let p1 ← phase1 cfg today pw records_knack records_hr
  let (ops2, inact) ← phase2 cfg p1.records records_knack
  pure ⟨p1.ops ++ ops2, p1.updates, p1.additions, inact⟩

/-! ## Basic lemmas on record lookup and assignment -/

theorem Record.get?_set_self (r : Record) (k : String) (v : Value) :
    (r.set k v).get? k = some v := by
  induction r with
  | nil => simp [Record.set, Record.get?]
  | cons p rest ih =>
    obtain ⟨k', v'⟩ := p
    by_cases h : k' = k <;> simp [Record.set, Record.get?, h, ih]

theorem Record.get?_set_ne (r : Record) (k k' : String) (v : Value)
    (h : k ≠ k') : (r.set k v).get? k' = r.get? k' := by
  induction r with
  | nil => simp [Record.set, Record.get?, h]
  | cons p rest ih =>
    obtain ⟨k'', v''⟩ := p
    by_cases h2 : k'' = k <;> simp [Record.set, Record.get?, h, h2, ih]

theorem Record.set_of_get?_none (r : Record) (k : String) (v : Value)
    (h : r.get? k = Option.none) : r.set k v = r ++ [(k, v)] := by
  induction r with
  | nil => rfl
  | cons p rest ih =>
    obtain ⟨k', v'⟩ := p
    by_cases h2 : k' = k
    · simp [Record.get?, h2] at h
    · simp only [Record.get?, if_neg h2] at h
      show Record.set ((k', v') :: rest) k v = (k', v') :: (rest ++ [(k, v)])
      simp [Record.set, h2, ih h]

theorem Record.get?_append_left (r1 r2 : Record) (k : String) (v : Value)
    (h : r1.get? k = some v) : Record.get? (r1 ++ r2) k = some v := by
  induction r1 with
  | nil => simp [Record.get?] at h
  | cons p rest ih =>
    obtain ⟨k', v'⟩ := p
    by_cases h2 : k' = k
    · simp only [Record.get?, if_pos h2] at h
      show Record.get? ((k', v') :: (rest ++ r2)) k = some v
      simp [Record.get?, h2, h]
    · simp only [Record.get?, if_neg h2] at h
      show Record.get? ((k', v') :: (rest ++ r2)) k = some v
      simp [Record.get?, h2, ih h]

theorem Record.get?_append_right (r1 r2 : Record) (k : String)
    (h : r1.get? k = Option.none) : Record.get? (r1 ++ r2) k = r2.get? k := by
  induction r1 with
  | nil => rfl
  | cons p rest ih =>
    obtain ⟨k', v'⟩ := p
    by_cases h2 : k' = k
    · simp [Record.get?, h2] at h
    · simp only [Record.get?, if_neg h2] at h
      show Record.get? ((k', v') :: (rest ++ r2)) k = Record.get? r2 k
      simp [Record.get?, h2, ih h]

theorem dictGet?_dictSet_self (d : List (String × String)) (k v : String) :
    dictGet? (dictSet d k v) k = some v := by
  induction d with
  | nil => simp [dictSet, dictGet?]
  | cons p rest ih =>
    obtain ⟨k', v'⟩ := p
    by_cases h : k' = k <;> simp [dictSet, dictGet?, h, ih]

/-! ## Specification of the diff rule

`field_differs` and `carries_keys` are written from the specification's
words for the diff rule (§4.3 of the spec): a dict-valued field of the
canonical record is compared element-wise at the keys of the canonical
sub-value only, a scalar field by direct inequality; the target record
is assumed to carry every key (and sub-key, inside a dict sub-value)
that the canonical record carries. -/

/-- Claim-side comparison of one canonical value against the matching
target value: for a dict, element-wise over the canonical keys only
(extra target keys ignored); for a scalar, direct inequality. -/
def value_differs (val_knack val : Value) : Bool :=
  match val with
  | Value.dict d =>
    match val_knack with
    | Value.dict dk => d.any fun q => dictGet? dk q.1 ≠ some q.2
    | _ => true
  | _ => val_knack ≠ val

/-- Claim-side test of whether one canonical field differs from the
target record. -/
def field_differs (record_knack : Record) (p : String × Value) : Bool :=
  (record_knack.get? p.1).elim true fun vk => value_differs vk p.2

/-- One canonical field is carried by the target record: the key is
present, and a dict value faces a dict sub-value carrying every
canonical sub-key. -/
def carries_field (record_knack : Record) (p : String × Value) : Bool :=
  (record_knack.get? p.1).elim false fun vk =>
    match p.2 with
    | Value.dict d =>
      match vk with
      | Value.dict dk => d.all fun q => (dictGet? dk q.1).isSome
      | _ => false
    | _ => true

/-- The target record carries every field of the canonical record, with
a dict sub-value (carrying every canonical sub-key) wherever the
canonical value is a dict. -/
def carries_keys (record_hr record_knack : Record) : Bool :=
  record_hr.all (carries_field record_knack)

theorem subDiff_eq_any (d dk : List (String × String))
    (h : ∀ q ∈ d, (dictGet? dk q.1).isSome = true) :
    subDiff d dk = some (d.any fun q => dictGet? dk q.1 ≠ some q.2) := by
  induction d with
  | nil => rfl
  | cons q rest ih =>
    obtain ⟨hq, hrest⟩ := List.forall_mem_cons.mp h
    obtain ⟨vk, hvk⟩ := Option.isSome_iff_exists.mp hq
    by_cases hne : vk = q.2
    · simp [subDiff, hvk, hne, ih hrest]
    · simp [subDiff, hvk, hne]

/-- Helper for one step of the `is_different` scan: a short-circuiting
`if` against an already-computed tail. -/
theorem if_bool_or (b c : Bool) (x : Option Bool) (hx : x = some c) :
    (if b = true then some true else x) = some (b || c) := by
  cases b <;> simp [hx]

/-- Propositional variant of `if_bool_or`. -/
theorem if_prop_or (p : Prop) [Decidable p] (c : Bool) (x : Option Bool)
    (hx : x = some c) :
    (if p then some true else x) = some (decide p || c) := by
  by_cases hp : p <;> simp [hp, hx]

/-- The source's `is_different` computes exactly the claim-side
field-by-field comparison, whenever the target record carries all the
canonical record's keys. -/
theorem is_different_eq_any (r t : Record) (h : carries_keys r t = true) :
    is_different r t = some (r.any (field_differs t)) := by
  induction r with
  | nil => rfl
  | cons p rest ih =>
    obtain ⟨k, v⟩ := p
    rw [carries_keys, List.all_cons] at h
    obtain ⟨hp, hrest⟩ := Bool.and_eq_true_iff.mp h
    have ihr := ih hrest
    rw [List.any_cons]
    match hvk : t.get? k with
    | Option.none => rw [carries_field, hvk] at hp; simp at hp
    | some vk =>
      rw [carries_field, hvk] at hp
      have hfd : field_differs t (k, v) = value_differs vk v := by
        rw [field_differs, hvk]; rfl
      rw [hfd]
      match v with
      | Value.dict d =>
        match vk with
        | Value.str s | Value.nat n | Value.bool b | Value.none
        | Value.list l => simp at hp
        | Value.dict dk =>
          simp only [Option.elim_some] at hp
          match d with
          | [] =>
            rw [show is_different ((k, Value.dict []) :: rest) t =
              is_different rest t by simp [is_different, hvk], ihr]
            rfl
          | q :: d' =>
            have hall : ∀ x ∈ q :: d', (dictGet? dk x.1).isSome = true := by
              simpa using hp
            have hsub := subDiff_eq_any (q :: d') dk hall
            rw [show is_different ((k, Value.dict (q :: d')) :: rest) t =
              (if ((q :: d').any fun x => decide (dictGet? dk x.1 ≠ some x.2))
                  = true then some true else is_different rest t) by
                simp only [is_different, Option.bind_eq_bind, hvk,
                  Option.some_bind, hsub]]
            rw [if_bool_or _ _ _ ihr]
            rfl
      | Value.str s =>
        rw [show is_different ((k, Value.str s) :: rest) t =
          (if vk ≠ Value.str s then some true
           else is_different rest t) by
            simp only [is_different, Option.bind_eq_bind, hvk,
              Option.some_bind]]
        rw [if_prop_or _ _ _ ihr]
        rfl
      | Value.nat n =>
        rw [show is_different ((k, Value.nat n) :: rest) t =
          (if vk ≠ Value.nat n then some true
           else is_different rest t) by
            simp only [is_different, Option.bind_eq_bind, hvk,
              Option.some_bind]]
        rw [if_prop_or _ _ _ ihr]
        rfl
      | Value.bool b =>
        rw [show is_different ((k, Value.bool b) :: rest) t =
          (if vk ≠ Value.bool b then some true
           else is_different rest t) by
            simp only [is_different, Option.bind_eq_bind, hvk,
              Option.some_bind]]
        rw [if_prop_or _ _ _ ihr]
        rfl
      | Value.none =>
        rw [show is_different ((k, Value.none) :: rest) t =
          (if vk ≠ Value.none then some true
           else is_different rest t) by
            simp only [is_different, Option.bind_eq_bind, hvk,
              Option.some_bind]]
        rw [if_prop_or _ _ _ ihr]
        rfl
      | Value.list l =>
        rw [show is_different ((k, Value.list l) :: rest) t =
          (if vk ≠ Value.list l then some true
           else is_different rest t) by
            simp only [is_different, Option.bind_eq_bind, hvk,
              Option.some_bind]]
        rw [if_prop_or _ _ _ ihr]
        rfl

/-! ## Distinctness of the configured field names -/

theorem Cfg.distinct_spec (cfg : Cfg) (h : cfg.distinct = true) :
    (cfg.pk_field ≠ cfg.status_field ∧ cfg.pk_field ≠ cfg.password_field ∧
     cfg.pk_field ≠ cfg.created_date_field ∧
     cfg.pk_field ≠ cfg.user_role_field ∧ cfg.pk_field ≠ cfg.email_field ∧
     cfg.pk_field ≠ cfg.name_field ∧ cfg.pk_field ≠ "id") ∧
    (cfg.status_field ≠ cfg.password_field ∧
     cfg.status_field ≠ cfg.created_date_field ∧
     cfg.status_field ≠ cfg.user_role_field ∧
     cfg.status_field ≠ cfg.email_field ∧
     cfg.status_field ≠ cfg.name_field ∧ cfg.status_field ≠ "id") ∧
    (cfg.password_field ≠ cfg.created_date_field ∧
     cfg.password_field ≠ cfg.user_role_field ∧
     cfg.password_field ≠ cfg.email_field ∧
     cfg.password_field ≠ cfg.name_field ∧ cfg.password_field ≠ "id") ∧
    (cfg.created_date_field ≠ cfg.user_role_field ∧
     cfg.created_date_field ≠ cfg.email_field ∧
     cfg.created_date_field ≠ cfg.name_field ∧
     cfg.created_date_field ≠ "id") ∧
    (cfg.user_role_field ≠ cfg.email_field ∧
     cfg.user_role_field ≠ cfg.name_field ∧ cfg.user_role_field ≠ "id") ∧
    (cfg.email_field ≠ cfg.name_field ∧ cfg.email_field ≠ "id") ∧
    cfg.name_field ≠ "id" := by
  simp [Cfg.distinct] at h
  tauto

/-! ## Decomposition of the two loops over list concatenation -/

theorem phase1_append (cfg : Cfg) (today pw : String) (ks : List Record)
    (l1 l2 : List Record) :
    phase1 cfg today pw ks (l1 ++ l2) =
      (phase1 cfg today pw ks l1).bind fun o1 =>
        (phase1 cfg today pw ks l2).map fun o2 =>
          ⟨o1.records ++ o2.records, o1.ops ++ o2.ops,
           o1.updates ++ o2.updates, o1.additions ++ o2.additions⟩ := by
  induction l1 with
  | nil =>
    cases h2 : phase1 cfg today pw ks l2 with
    | none => simp [phase1, h2]
    | some o2 => obtain ⟨a, b, c, d⟩ := o2; simp [phase1, h2]
  | cons r rest ih =>
    cases hs : process_hr cfg today pw ks r with
    | none => simp [phase1, hs]
    | some s =>
      cases h1 : phase1 cfg today pw ks rest with
      | none => simp [phase1, hs, h1, ih]
      | some o1 =>
        cases h2 : phase1 cfg today pw ks l2 with
        | none => simp [phase1, hs, h1, h2, ih]
        | some o2 => simp [phase1, hs, h1, h2, ih]

theorem phase2_append (cfg : Cfg) (hrs : List Record)
    (k1 k2 : List Record) :
    phase2 cfg hrs (k1 ++ k2) =
      (phase2 cfg hrs k1).bind fun o1 =>
        (phase2 cfg hrs k2).map fun o2 =>
          (o1.1 ++ o2.1, o1.2 ++ o2.2) := by
  induction k1 with
  | nil =>
    cases h2 : phase2 cfg hrs k2 with
    | none => simp [phase2, h2]
    | some o2 => simp [phase2, h2]
  | cons r rest ih =>
    cases hs : process_knack cfg hrs r with
    | none => simp [phase2, hs]
    | some s =>
      cases h1 : phase2 cfg hrs rest with
      | none => simp [phase2, hs, h1, ih]
      | some o1 =>
        cases h2 : phase2 cfg hrs k2 with
        | none => simp [phase2, hs, h1, h2, ih]
        | some o2 => simp [phase2, hs, h1, h2, ih]

/-- A successful `build_payload` run over `l1 ++ r :: l2` splits into
the contributions of `l1`, of `r`, of `l2`, and of the deactivation
scan, appended in that order. -/
theorem build_payload_decomp (cfg : Cfg) (today pw : String)
    (ks l1 l2 : List Record) (r : Record) (res : BuildResult)
    (h : build_payload cfg today pw ks (l1 ++ r :: l2) = some res) :
    ∃ (o1 : Phase1Out) (s : HrStep) (o2 : Phase1Out)
      (p2 : List Record × List Value),
      phase1 cfg today pw ks l1 = some o1 ∧
      process_hr cfg today pw ks r = some s ∧
      phase1 cfg today pw ks l2 = some o2 ∧
      phase2 cfg (o1.records ++ s.record :: o2.records) ks = some p2 ∧
      res.payload = o1.ops ++ s.ops ++ o2.ops ++ p2.1 ∧
      res.updates = o1.updates ++ s.updates ++ o2.updates ∧
      res.additions = o1.additions ++ s.additions ++ o2.additions ∧
      res.inactivate = p2.2 := by
  rw [build_payload, phase1_append] at h
  cases h1 : phase1 cfg today pw ks l1 with
  | none => rw [h1] at h; simp at h
  | some o1 =>
    rw [h1] at h
    cases hs : process_hr cfg today pw ks r with
    | none => rw [show phase1 cfg today pw ks (r :: l2) = Option.none by
        simp [phase1, hs]] at h; simp at h
    | some s =>
      cases h2 : phase1 cfg today pw ks l2 with
      | none => rw [show phase1 cfg today pw ks (r :: l2) = Option.none by
          simp [phase1, hs, h2]] at h; simp at h
      | some o2 =>
        rw [show phase1 cfg today pw ks (r :: l2) =
            some ⟨s.record :: o2.records, s.ops ++ o2.ops,
              s.updates ++ o2.updates, s.additions ++ o2.additions⟩ by
          simp [phase1, hs, h2]] at h
        simp only [Option.bind_eq_bind, Option.some_bind,
          Option.map_some'] at h
        cases hp2 : phase2 cfg (o1.records ++ s.record :: o2.records) ks with
        | none => rw [hp2] at h; simp at h
        | some p2 =>
          obtain ⟨ops2, inact⟩ := p2
          rw [hp2, Option.some_bind] at h
          simp only [pure, Option.some_inj] at h
          refine ⟨o1, s, o2, (ops2, inact), rfl, rfl, rfl, hp2,
            ?_, ?_, ?_, ?_⟩ <;> (rw [← h]; try simp)

/-! ## The first loop leaves every banner record's primary key intact -/

/-- The structure of a successful nested email assignment:
`r[email_field]` was a dict `d`, and the result re-assigns the field to
`d` with its `"email"` entry set. -/
theorem setEmailSub_eq (r : Record) (f v : String) (r' : Record)
    (h : setEmailSub r f v = some r') :
    ∃ d, r.get? f = some (Value.dict d) ∧
      r' = r.set f (Value.dict (dictSet d "email" v)) := by
  rw [setEmailSub] at h
  cases hf : r.get? f with
  | none => rw [hf] at h; simp at h
  | some val =>
    rw [hf] at h
    cases val <;> simp_all

/-- An email assignment leaves every other field unchanged. -/
theorem setEmailSub_get?_ne (r : Record) (f v : String) (r' : Record)
    (k : String) (hne : f ≠ k) (h : setEmailSub r f v = some r') :
    r'.get? k = r.get? k := by
  obtain ⟨d, _, rfl⟩ := setEmailSub_eq r f v r' h
  exact Record.get?_set_ne r f k _ hne

/-- Inversion of a successful `matched_mutate`: the result is the
banner record with the knack `id` carried over, with the status
possibly flipped to `"active"`. -/
theorem matched_mutate_spec (cfg : Cfg) (r_hr r_knack : Record)
    (r2 : Record) (h : matched_mutate cfg r_hr r_knack = some r2) :
    ∃ kid, r_knack.get? "id" = some kid ∧
      (r2 = r_hr.set "id" kid ∨
       r2 = (r_hr.set "id" kid).set cfg.status_field (Value.str "active")) := by
  rw [matched_mutate] at h
  simp only [Option.bind_eq_bind] at h
  cases hkid : r_knack.get? "id" with
  | none => rw [hkid] at h; simp at h
  | some kid =>
    rw [hkid, Option.some_bind] at h
    refine ⟨kid, rfl, ?_⟩
    cases hks : r_knack.get? cfg.status_field with
    | none => rw [hks] at h; simp at h
    | some kstatus =>
      rw [hks, Option.some_bind] at h
      by_cases hcond : kstatus = Value.str "inactive"
      · rw [if_pos hcond] at h
        cases hsep : r_knack.get? cfg.separated_field with
        | none => rw [hsep] at h; simp at h
        | some ksep =>
          rw [hsep] at h
          simp only [Option.some_bind, Option.some_inj, pure] at h
          cases ht : truthy ksep with
          | false => rw [ht] at h; simp at h; exact Or.inr h.symm
          | true => rw [ht] at h; simp at h; exact Or.inl h.symm
      · rw [if_neg hcond] at h
        simp only [Option.some_bind, Option.some_inj, pure] at h
        simp at h
        exact Or.inl h.symm

/-- Exact value of `matched_mutate` when the knack status is
`"inactive"`: the flip happens exactly when the separated flag is
falsy. -/
theorem matched_mutate_eq_inactive (cfg : Cfg) (r_hr r_knack : Record)
    (kid ksep : Value)
    (hkid : r_knack.get? "id" = some kid)
    (hks : r_knack.get? cfg.status_field = some (Value.str "inactive"))
    (hsep : r_knack.get? cfg.separated_field = some ksep) :
    matched_mutate cfg r_hr r_knack =
      some (if truthy ksep then r_hr.set "id" kid
            else (r_hr.set "id" kid).set cfg.status_field
              (Value.str "active")) := by
  rw [matched_mutate]
  simp only [Option.bind_eq_bind, hkid, Option.some_bind, hks, hsep,
    if_pos rfl]
  cases ht : truthy ksep <;> simp [ht]

/-- Exact value of `matched_mutate` when the knack status is not
`"inactive"`: no flip (and the separated field is never read). -/
theorem matched_mutate_eq_other (cfg : Cfg) (r_hr r_knack : Record)
    (kid kstatus : Value)
    (hkid : r_knack.get? "id" = some kid)
    (hks : r_knack.get? cfg.status_field = some kstatus)
    (hne : kstatus ≠ Value.str "inactive") :
    matched_mutate cfg r_hr r_knack = some (r_hr.set "id" kid) := by
  rw [matched_mutate]
  simp only [Option.bind_eq_bind, hkid, Option.some_bind, hks, if_neg hne]
  simp

/-- Inversion of a successful `matched_emit`: the emitted record is the
mutated banner record, possibly with the knack email substituted into
its email sub-value. -/
theorem matched_emit_record (cfg : Cfg) (r2 r_knack : Record) (s : HrStep)
    (h : matched_emit cfg r2 r_knack = some s) :
    s.record = r2 ∨
    ∃ d kem, r2.get? cfg.email_field = some (Value.dict d) ∧
      s.record = r2.set cfg.email_field (Value.dict (dictSet d "email" kem)) := by
  rw [matched_emit] at h
  simp only [Option.bind_eq_bind] at h
  cases hdif : is_different r2 r_knack with
  | none => rw [hdif] at h; simp at h
  | some d =>
    rw [hdif, Option.some_bind] at h
    cases d with
    | false =>
      simp only [Bool.false_eq_true, if_false, pure, Option.some_inj] at h
      left; rw [← h]
    | true =>
      rw [if_pos rfl] at h
      cases hem : getEmailSub r2 cfg.email_field with
      | none => rw [hem] at h; simp at h
      | some em =>
        rw [hem, Option.some_bind] at h
        by_cases hemno : em = "no email"
        · rw [if_pos hemno] at h
          cases hkem : getEmailSub r_knack cfg.email_field with
          | none => rw [hkem] at h; simp at h
          | some kem =>
            rw [hkem, Option.some_bind] at h
            cases hset : setEmailSub r2 cfg.email_field kem with
            | none => rw [hset] at h; simp at h
            | some r3 =>
              rw [hset, Option.some_bind] at h
              cases hnm : r3.get? cfg.name_field with
              | none => rw [hnm] at h; simp at h
              | some nm =>
                rw [hnm, Option.some_bind] at h
                simp only [pure, Option.some_inj] at h
                obtain ⟨dd, hdd, hr3⟩ := setEmailSub_eq _ _ _ _ hset
                right
                exact ⟨dd, kem, hdd, by rw [← h, hr3]⟩
        · rw [if_neg hemno] at h
          simp only [pure, Option.some_bind] at h
          cases hnm : r2.get? cfg.name_field with
          | none => rw [hnm] at h; simp at h
          | some nm =>
            rw [hnm, Option.some_bind] at h
            simp only [Option.some_inj] at h
            left; rw [← h]

/-- Inversion of a successful `new_emit`: the emitted record is the
mutated banner record, possibly with a placeholder email substituted
into its email sub-value. -/
theorem new_emit_record (cfg : Cfg) (r1 : Record) (s : HrStep)
    (h : new_emit cfg r1 = some s) :
    s.record = r1 ∨
    ∃ d pe, r1.get? cfg.email_field = some (Value.dict d) ∧
      s.record = r1.set cfg.email_field (Value.dict (dictSet d "email" pe)) := by
  rw [new_emit] at h
  simp only [Option.bind_eq_bind] at h
  cases hem : getEmailSub r1 cfg.email_field with
  | none => rw [hem] at h; simp at h
  | some em =>
    rw [hem, Option.some_bind] at h
    by_cases hemno : em = "no email"
    · rw [if_pos hemno] at h
      cases hpe : create_placeholder_email r1 cfg.name_field with
      | none => rw [hpe] at h; simp at h
      | some pe =>
        rw [hpe, Option.some_bind] at h
        cases hset : setEmailSub r1 cfg.email_field pe with
        | none => rw [hset] at h; simp at h
        | some r2 =>
          rw [hset, Option.some_bind] at h
          cases hnm : r2.get? cfg.name_field with
          | none => rw [hnm] at h; simp at h
          | some nm =>
            rw [hnm, Option.some_bind] at h
            simp only [pure, Option.some_inj] at h
            obtain ⟨dd, hdd, hr2⟩ := setEmailSub_eq _ _ _ _ hset
            right
            exact ⟨dd, pe, hdd, by rw [← h, hr2]⟩
    · rw [if_neg hemno] at h
      simp only [pure, Option.some_bind] at h
      cases hnm : r1.get? cfg.name_field with
      | none => rw [hnm] at h; simp at h
      | some nm =>
        rw [hnm, Option.some_bind] at h
        simp only [Option.some_inj] at h
        left; rw [← h]

/-- The first loop's body never changes a banner record's primary-key
field (given a well-formed, pairwise-distinct configuration). -/
theorem process_hr_record_pk (cfg : Cfg) (today pw : String)
    (ks : List Record) (r_hr : Record) (s : HrStep)
    (hd : cfg.distinct = true)
    (h : process_hr cfg today pw ks r_hr = some s) :
    s.record.get? cfg.pk_field = r_hr.get? cfg.pk_field := by
  obtain ⟨⟨hps, hpp, hpc, hpr, hpe, hpn, hpid⟩, _⟩ := cfg.distinct_spec hd
  rw [process_hr] at h
  simp only [Option.bind_eq_bind] at h
  cases hpk : r_hr.get? cfg.pk_field with
  | none => rw [hpk] at h; simp at h
  | some pk =>
    rw [hpk, Option.some_bind] at h
    cases hfind : find_knack_match cfg.pk_field pk ks with
    | none => rw [hfind] at h; simp at h
    | some m =>
      rw [hfind, Option.some_bind] at h
      cases m with
      | some r_knack =>
        simp only [process_matched, Option.bind_eq_bind] at h
        cases hmut : matched_mutate cfg r_hr r_knack with
        | none => rw [hmut] at h; simp at h
        | some r2 =>
          rw [hmut, Option.some_bind] at h
          obtain ⟨kid, _, hshape⟩ := matched_mutate_spec cfg r_hr r_knack r2 hmut
          have hr2 : r2.get? cfg.pk_field = some pk := by
            rcases hshape with rfl | rfl
            · rw [Record.get?_set_ne _ _ _ _ (Ne.symm hpid)]; exact hpk
            · rw [Record.get?_set_ne _ _ _ _ (Ne.symm hps),
                Record.get?_set_ne _ _ _ _ (Ne.symm hpid)]
              exact hpk
          rcases matched_emit_record cfg r2 r_knack s h with heq | ⟨d, kem, _, heq⟩
          · rw [heq]; exact hr2
          · rw [heq, Record.get?_set_ne _ _ _ _ (Ne.symm hpe)]; exact hr2
      | none =>
        have hr1 : (new_mutate cfg today pw r_hr).get? cfg.pk_field
            = some pk := by
          rw [new_mutate,
            Record.get?_set_ne _ _ _ _ (Ne.symm hpr),
            Record.get?_set_ne _ _ _ _ (Ne.symm hpc),
            Record.get?_set_ne _ _ _ _ (Ne.symm hps),
            Record.get?_set_ne _ _ _ _ (Ne.symm hpp)]
          exact hpk
        rw [process_new] at h
        rcases new_emit_record cfg _ s h with heq | ⟨d, pe, _, heq⟩
        · rw [heq]; exact hr1
        · rw [heq, Record.get?_set_ne _ _ _ _ (Ne.symm hpe)]; exact hr1

/-- The first loop preserves, record by record, every primary-key
lookup. -/
theorem phase1_records_pk (cfg : Cfg) (today pw : String)
    (ks : List Record) (l : List Record) (out : Phase1Out)
    (hd : cfg.distinct = true)
    (h : phase1 cfg today pw ks l = some out) :
    List.Forall₂
      (fun a b : Record => a.get? cfg.pk_field = b.get? cfg.pk_field)
      out.records l := by
  induction l generalizing out with
  | nil =>
    rw [phase1] at h
    simp only [Option.some_inj] at h
    rw [← h]
    exact List.Forall₂.nil
  | cons r rest ih =>
    rw [phase1] at h
    simp only [Option.bind_eq_bind] at h
    cases hs : process_hr cfg today pw ks r with
    | none => rw [hs] at h; simp at h
    | some s =>
      rw [hs, Option.some_bind] at h
      cases hrest : phase1 cfg today pw ks rest with
      | none => rw [hrest] at h; simp at h
      | some o =>
        rw [hrest, Option.some_bind] at h
        simp only [pure, Option.some_inj] at h
        rw [← h]
        exact List.Forall₂.cons
          (process_hr_record_pk cfg today pw ks r s hd hs) (ih o hrest)

/-- Scanning two pointwise pk-equal banner lists for a knack primary
key gives the same outcome. -/
theorem hr_has_match_congr (pk : String) (v : Value) (l1 l2 : List Record)
    (h : List.Forall₂
      (fun a b : Record => a.get? pk = b.get? pk) l1 l2) :
    hr_has_match pk v l1 = hr_has_match pk v l2 := by
  induction h with
  | nil => rfl
  | cons hab hrest ih =>
    simp only [hr_has_match, Option.bind_eq_bind]
    rw [hab, ih]

/-! ## Decomposition of `update_emails` -/

theorem update_emails_append (l1 l2 : List Record)
    (ees : List (String × DirEntry)) :
    update_emails (l1 ++ l2) ees =
      (update_emails l1 ees).bind fun o1 =>
        (update_emails l2 ees).map fun o2 =>
          (o1.1 ++ o2.1, o1.2 + o2.2) := by
  induction l1 with
  | nil =>
    cases h2 : update_emails l2 ees with
    | none => simp [update_emails, h2]
    | some o2 => simp [update_emails, h2]
  | cons r rest ih =>
    cases hs : update_email_one ees r with
    | none => simp [update_emails, hs]
    | some s =>
      obtain ⟨r', nr⟩ := s
      cases h1 : update_emails rest ees with
      | none => simp [update_emails, hs, h1, ih]
      | some o1 =>
        cases h2 : update_emails l2 ees with
        | none => simp [update_emails, hs, h1, h2, ih]
        | some o2 =>
          simp [update_emails, hs, h1, h2, ih, Nat.add_assoc]

/-- The exact behaviour of the `update_emails` loop body on a record
carrying an identifier and an email. -/
theorem update_email_one_spec (ees : List (String × DirEntry))
    (r : Record) (pk cur : Value)
    (hpk : r.get? "pidm" = some pk)
    (hcur : r.get? "email" = some cur) :
    update_email_one ees r =
      some (match dirGet? ees (pyStr pk) with
        | Option.none => (r, 1)
        | some e =>
          if cur ≠ Value.str e.email ∧ e.email.length > 0
          then (r.set "email" (Value.str e.email), 0) else (r, 0)) := by
  rw [update_email_one]
  simp only [Option.bind_eq_bind, hpk, Option.some_bind]
  cases hdir : dirGet? ees (pyStr pk) with
  | none => rfl
  | some e =>
    simp only [hcur]
    by_cases hc : cur ≠ Value.str e.email ∧ e.email.length > 0
    · rw [if_pos hc, if_pos hc]; rfl
    · rw [if_neg hc, if_neg hc]; rfl

/-- C5: for every source record (carrying its identifier and email
fields), `update_emails` overwrites the record's email with the
directory entry's email exactly when the identifier, converted to a
string, is present in the directory, the directory email is non-empty,
and it differs from the record's current email; when the identifier is
absent from the directory the not-found counter is incremented by one
and the record passes through completely unmodified — the miss is
recovered, not fatal. -/
theorem C5_update_emails_directory (ees : List (String × DirEntry))
    (l1 l2 : List Record) (r : Record) (out : List Record) (n : Nat)
    (pk cur : Value)
    (hpk : r.get? "pidm" = some pk)
    (hcur : r.get? "email" = some cur)
    (hrun : update_emails (l1 ++ r :: l2) ees = some (out, n)) :
    ∃ (out1 out2 : List Record) (n1 n2 : Nat) (r' : Record) (nr : Nat),
      update_emails l1 ees = some (out1, n1) ∧
      update_emails l2 ees = some (out2, n2) ∧
      update_email_one ees r = some (r', nr) ∧
      out = out1 ++ r' :: out2 ∧ n = n1 + (nr + n2) ∧
      (∀ e, dirGet? ees (pyStr pk) = some e →
        nr = 0 ∧
        ((cur ≠ Value.str e.email ∧ e.email.length > 0) →
          r' = r.set "email" (Value.str e.email)) ∧
        (¬(cur ≠ Value.str e.email ∧ e.email.length > 0) → r' = r)) ∧
      (dirGet? ees (pyStr pk) = Option.none → nr = 1 ∧ r' = r) := by
  rw [update_emails_append] at hrun
  cases h1 : update_emails l1 ees with
  | none => rw [h1] at hrun; simp at hrun
  | some o1 =>
    obtain ⟨out1, n1⟩ := o1
    rw [h1] at hrun
    have hone := update_email_one_spec ees r pk cur hpk hcur
    cases h2 : update_emails l2 ees with
    | none =>
      rw [show update_emails (r :: l2) ees = Option.none by
        simp [update_emails, h2]] at hrun
      simp at hrun
    | some o2 =>
      obtain ⟨out2, n2⟩ := o2
      cases hone2 : update_email_one ees r with
      | none => rw [hone2] at hone; simp at hone
      | some s =>
        obtain ⟨r', nr⟩ := s
        rw [hone2] at hone
        simp only [Option.some_inj] at hone
        rw [show update_emails (r :: l2) ees = some (r' :: out2, nr + n2) by
          simp [update_emails, hone2, h2]] at hrun
        simp only [Option.some_bind, Option.map_some',
          Option.some_inj, Prod.mk.injEq] at hrun
        refine ⟨out1, out2, n1, n2, r', nr, rfl, rfl, rfl, ?_, ?_,
          ?_, ?_⟩
        · exact hrun.1.symm
        · exact hrun.2.symm
        · intro e hdir
          simp only [hdir] at hone
          by_cases hc : cur ≠ Value.str e.email ∧ e.email.length > 0
          · rw [if_pos hc] at hone
            simp only [Prod.mk.injEq] at hone
            exact ⟨hone.2, fun _ => hone.1, fun hn => absurd hc hn⟩
          · rw [if_neg hc] at hone
            simp only [Prod.mk.injEq] at hone
            exact ⟨hone.2, fun hcc => absurd hcc hc, fun _ => hone.1⟩
        · intro hdir
          simp only [hdir] at hone
          simp only [Prod.mk.injEq] at hone
          exact ⟨hone.2, hone.1⟩

/-- A concrete banner record for the C5 witness. -/
def c5_record : Record :=
  [("pidm", Value.nat 5), ("email", Value.str "old@austintexas.gov")]

/-- A concrete directory for the C5 witness. -/
def c5_dir : List (String × DirEntry) :=
  [("5", ⟨"new@austintexas.gov", "Doe, Jane"⟩)]

theorem C5_update_emails_directory_witness :
    ∃ (out1 out2 : List Record) (n1 n2 : Nat) (r' : Record) (nr : Nat),
      update_emails [] c5_dir = some (out1, n1) ∧
      update_emails [] c5_dir = some (out2, n2) ∧
      update_email_one c5_dir c5_record = some (r', nr) ∧
      [[("pidm", Value.nat 5),
        ("email", Value.str "new@austintexas.gov")]] = out1 ++ r' :: out2 ∧
      0 = n1 + (nr + n2) ∧
      (∀ e, dirGet? c5_dir (pyStr (Value.nat 5)) = some e →
        nr = 0 ∧
        ((Value.str "old@austintexas.gov" ≠ Value.str e.email ∧
            e.email.length > 0) →
          r' = c5_record.set "email" (Value.str e.email)) ∧
        (¬(Value.str "old@austintexas.gov" ≠ Value.str e.email ∧
            e.email.length > 0) → r' = c5_record)) ∧
      (dirGet? c5_dir (pyStr (Value.nat 5)) = Option.none →
        nr = 1 ∧ r' = c5_record) := by
  have h := C5_update_emails_directory c5_dir [] [] c5_record
    [[("pidm", Value.nat 5), ("email", Value.str "new@austintexas.gov")]]
    0 (Value.nat 5) (Value.str "old@austintexas.gov")
    (by decide) (by decide) (by decide)
  exact h

/-! ## Claim C6 (name split) -/

/-- C6 counterexample: on a full name containing two commas, the code
splits on *every* comma and keeps only `parts[1]`, so the first name is
the trimmed segment between the first and second comma (`"Jane"`), not
the whole trimmed text after the first comma (`"Jane, Q"`) as the claim
states. -/
theorem C6_counterexample_two_commas :
    parse_name "Doe, Jane, Q" =
      some (Value.dict [("first", "Jane"), ("last", "Doe")]) ∧
    some (Value.dict [("first", "Jane"), ("last", "Doe")]) ≠
      some (Value.dict [("first", "Jane, Q"), ("last", "Doe")]) := by
  constructor
  · decide
  · decide

/-- C6 (amended): `parse_name` splits the full name on *every* comma
and returns `{first, last}` where `last` is the whitespace-trimmed text
before the first comma and `first` is the whitespace-trimmed *second
segment* — the text between the first and second comma, which equals
the whole text after the first comma only when there is at most one
further comma-free tail; in particular
`parse_name "Doe, Jane Q" = {first: "Jane Q", last: "Doe"}`. -/
theorem C6_parse_name_amended (full_name p0 p1 : String)
    (rest : List String)
    (hsplit : pySplitOn ',' full_name = p0 :: p1 :: rest) :
    parse_name full_name =
      some (Value.dict [("first", pyStrip p1), ("last", pyStrip p0)]) := by
  rw [parse_name, hsplit]

theorem C6_parse_name_amended_witness :
    pySplitOn ',' "Doe, Jane Q" = "Doe" :: " Jane Q" :: [] ∧
    parse_name "Doe, Jane Q" =
      some (Value.dict [("first", "Jane Q"), ("last", "Doe")]) := by
  refine ⟨by decide, ?_⟩
  rw [C6_parse_name_amended "Doe, Jane Q" "Doe" " Jane Q" [] (by decide)]
  decide

/-! ## Claim C3 (diff rule) -/

/-- C3: for every canonical record `r` and target record `t` carrying
all of `r`'s keys (and, inside dict-valued fields, all of `r`'s
sub-keys), `is_different r t` succeeds and returns `true` iff some
field present in `r` differs from `t` under the rule embodied by
`field_differs`: a dict-valued field is compared element-wise over the
keys present in `r`'s sub-value only (extra keys in `t`'s sub-value
never make the records different), a scalar field by direct inequality;
the scan short-circuits at the first mismatch, and a key absent from
`t` is a fatal lookup error (`Option.none`) rather than a difference,
which the `carries_keys` hypothesis rules out. -/
theorem C3_is_different_diff_rule (r t : Record)
    (h : carries_keys r t = true) :
    is_different r t = some (r.any (field_differs t)) :=
  is_different_eq_any r t h

/-- A concrete canonical record for the C3 witness. -/
def c3_hr : Record :=
  [("field_99", Value.nat 7), ("field_230", Value.str "Engineer"),
   ("field_17", Value.dict [("first", "J"), ("last", "D")])]

/-- A concrete knack record for the C3 witness, carrying an extra
presentation sub-key that must be ignored. -/
def c3_knack : Record :=
  [("id", Value.str "K1"), ("field_99", Value.nat 7),
   ("field_230", Value.str "Planner"),
   ("field_17",
     Value.dict [("first", "J"), ("last", "D"), ("formatted", "J D")])]

theorem C3_is_different_diff_rule_witness :
    carries_keys c3_hr c3_knack = true ∧
    is_different c3_hr c3_knack = some (c3_hr.any (field_differs c3_knack)) :=
  ⟨by decide, C3_is_different_diff_rule c3_hr c3_knack (by decide)⟩

/-! ## Claim C8 (payload sanitizer) -/

/-- Claim-side test for the sanitizer: the operation carries an email
sub-value and it is exactly the `"no email"` sentinel. -/
def email_is_sentinel (email_field : String) (r : Record) : Bool :=
  match r.get? email_field with
  | some (Value.dict d) => dictGet? d "email" = some "no email"
  | _ => false

/-- C8: for every operation list in which any present email field holds
a dict sub-value, the sanitizer returns exactly the operations except
those whose email sub-value equals the sentinel `"no email"`: an
operation carrying an email sub-value different from the sentinel is
kept, and an operation with no email field at all (a deactivation
payload) passes through unconditionally — the caught `KeyError` is
never treated as a missing-email exclusion. -/
theorem C8_remove_empty_emails_filter (payload : List Record)
    (email_field name_field : String)
    (hwf : ∀ r ∈ payload, ∀ v, r.get? email_field = some v →
      ∃ d, v = Value.dict d) :
    remove_empty_emails payload email_field name_field =
      some (payload.filter fun r => !(email_is_sentinel email_field r)) := by
  induction payload with
  | nil => rfl
  | cons r rest ih =>
    obtain ⟨hr, hrest⟩ := List.forall_mem_cons.mp hwf
    have hkeep : keep_payload_item email_field r =
        some (!(email_is_sentinel email_field r)) := by
      rw [keep_payload_item, email_is_sentinel]
      cases hv : r.get? email_field with
      | none => rfl
      | some v =>
        obtain ⟨d, rfl⟩ := hr v hv
        cases he : dictGet? d "email" with
        | none => simp [he]
        | some e =>
          by_cases hee : e = "no email" <;> simp [he, hee]
    rw [remove_empty_emails]
    simp only [Option.bind_eq_bind, hkeep, Option.some_bind, ih hrest,
      List.filter_cons]
    cases hs : email_is_sentinel email_field r <;> simp

/-- A concrete payload for the C8 witness: a sentinel-email update (to
be dropped), a real-email update (kept) and an email-less deactivation
payload (kept). -/
def c8_payload : List Record :=
  [[("field_18", Value.dict [("email", "no email")]),
    ("field_17", Value.dict [("first", "A"), ("last", "B")])],
   [("field_18", Value.dict [("email", "a@b.gov")])],
   [("id", Value.str "K"), ("field_20", Value.str "inactive")]]

theorem C8_remove_empty_emails_filter_witness :
    (∀ r ∈ c8_payload, ∀ v, Record.get? r "field_18" = some v →
      ∃ d, v = Value.dict d) ∧
    remove_empty_emails c8_payload "field_18" "field_17" =
      some (c8_payload.filter fun r => !(email_is_sentinel "field_18" r)) := by
  have hwf : ∀ r ∈ c8_payload, ∀ v, Record.get? r "field_18" = some v →
      ∃ d, v = Value.dict d := by
    intro r hr v hv
    fin_cases hr <;> simp_all [c8_payload, Record.get?] <;>
      exact ⟨_, hv.symm⟩
  exact ⟨hwf, C8_remove_empty_emails_filter c8_payload "field_18"
    "field_17" hwf⟩

/-! ## Claim C9 (error formatter) -/

theorem collect_messages_eq (error_list : List Record)
    (msgs : List String)
    (h : List.Forall₂
      (fun (e : Record) (m : String) => e.get? "message" = some (Value.str m))
      error_list msgs) :
    collect_messages error_list = some msgs := by
  induction h with
  | nil => rfl
  | cons hem hrest ih => simp [collect_messages, hem, ih]

/-- C9: for every list of API error entries — each carrying a string
under `"message"`, which is what the target API's validation errors
look like — and every record, `format_errors` returns (never raises)
the fixed separator-delimited block concatenating the reported messages
and the record's stringified field values. -/
theorem C9_format_errors_total (error_list : List Record)
    (record : Record) (msgs : List String)
    (hmsgs : List.Forall₂
      (fun (e : Record) (m : String) => e.get? "message" = some (Value.str m))
      error_list msgs) :
    format_errors error_list record =
      some ("----------" ++ "\nError(s):\n" ++ String.intercalate "\n" msgs ++
        "\n\nData:\n" ++
        String.intercalate "\n" (record.map fun p => pyStr p.2) ++
        "\n\n") := by
  rw [format_errors]
  simp only [Option.bind_eq_bind, collect_messages_eq error_list msgs hmsgs,
    Option.some_bind]
  rfl

theorem C9_format_errors_total_witness :
    List.Forall₂
      (fun (e : Record) (m : String) =>
        Record.get? e "message" = some (Value.str m))
      [[("message", Value.str "bad email")],
       [("message", Value.str "bad name")]]
      ["bad email", "bad name"] ∧
    format_errors
      [[("message", Value.str "bad email")],
       [("message", Value.str "bad name")]]
      [("f1", Value.nat 3), ("f2", Value.str "x")] =
      some ("----------" ++ "\nError(s):\n" ++
        String.intercalate "\n" ["bad email", "bad name"] ++
        "\n\nData:\n" ++
        String.intercalate "\n"
          ([("f1", Value.nat 3), ("f2", Value.str "x")].map
            fun p => pyStr p.2) ++
        "\n\n") := by
  have hf : List.Forall₂
      (fun (e : Record) (m : String) =>
        Record.get? e "message" = some (Value.str m))
      [[("message", Value.str "bad email")],
       [("message", Value.str "bad name")]]
      ["bad email", "bad name"] := by
    refine List.Forall₂.cons (by decide) (List.Forall₂.cons (by decide) ?_)
    exact List.Forall₂.nil
  exact ⟨hf, C9_format_errors_total _ _ _ hf⟩

/-! ## Claim C7 (date transform) -/

theorem splitChAux_no_sep (p : Char → Bool) (l1 l2 acc : List Char)
    (h : ∀ c ∈ l1, p c = false) :
    splitChAux p (l1 ++ l2) acc = splitChAux p l2 (l1.reverse ++ acc) := by
  induction l1 generalizing acc with
  | nil => simp
  | cons c cs ih =>
    have hc : p c = false := h c (by simp)
    obtain ⟨_, hcs⟩ := List.forall_mem_cons.mp h
    rw [List.cons_append, splitChAux, hc]
    simp only [Bool.false_eq_true, if_false]
    rw [ih (c :: acc) hcs]
    simp

theorem splitChAux_sep (p : Char → Bool) (c : Char) (l2 acc : List Char)
    (h : p c = true) :
    splitChAux p (c :: l2) acc = acc.reverse :: splitChAux p l2 [] := by
  rw [splitChAux, h]
  simp

/-- Python-splitting a string of the exact shape
`"<w0><sep><w1><sep>...<sep><wn>"` used by the banner dates. -/
theorem pySplitWs_date_shape (month dd yyyy hms : String)
    (hm : ∀ c ∈ month.data, pyIsSpace c = false)
    (hd : dd.data ≠ [] ∧ ∀ c ∈ dd.data, pyIsSpace c = false)
    (hy : yyyy.data ≠ [] ∧ ∀ c ∈ yyyy.data, pyIsSpace c = false)
    (hh : hms.data ≠ [] ∧ ∀ c ∈ hms.data, pyIsSpace c = false) :
    pySplitWs (month ++ ", " ++ dd ++ " " ++ yyyy ++ " " ++ hms) =
      [String.mk (month.data ++ [',']), dd, yyyy, hms] := by
  have hdata : (month ++ ", " ++ dd ++ " " ++ yyyy ++ " " ++ hms).data =
      (month.data ++ [',']) ++ (' ' :: (dd.data ++
        (' ' :: (yyyy.data ++ (' ' :: hms.data))))) := by
    simp [String.data_append, show (", ").data = [',', ' '] from rfl,
      show (" ").data = [' '] from rfl]
  have hmc : ∀ c ∈ month.data ++ [','], pyIsSpace c = false := by
    intro c hc
    rcases List.mem_append.mp hc with h1 | h1
    · exact hm c h1
    · simp at h1; rw [h1]; rfl
  rw [pySplitWs, hdata]
  rw [splitChAux_no_sep pyIsSpace (month.data ++ [',']) _ [] hmc]
  rw [splitChAux_sep pyIsSpace ' ' _ _ rfl]
  rw [show dd.data ++ (' ' :: (yyyy.data ++ (' ' :: hms.data))) =
    dd.data ++ (' ' :: (yyyy.data ++ (' ' :: hms.data))) from rfl]
  rw [splitChAux_no_sep pyIsSpace dd.data _ [] hd.2]
  rw [splitChAux_sep pyIsSpace ' ' _ _ rfl]
  rw [splitChAux_no_sep pyIsSpace yyyy.data _ [] hy.2]
  rw [splitChAux_sep pyIsSpace ' ' _ _ rfl]
  rw [show hms.data = hms.data ++ [] from (List.append_nil _).symm,
    splitChAux_no_sep pyIsSpace hms.data [] [] hh.2]
  rw [splitChAux]
  simp [hd.1, hy.1, hh.1]

/-- C7: for every date string of the exact shape
`"<Month>, <DD> <YYYY> <HH:MM:SS>"` (the words non-empty and free of
whitespace), the date transform returns `{date: "MM/DD/YYYY"}` through
the fixed month-name table when the month name is recognized, and fails
(an uncaught `KeyError`, modelled as `Option.none`) when it is not:
the result is exactly the mapped image of the table lookup. -/
theorem C7_format_date_months (month dd yyyy hms : String)
    (hm : month.data ≠ [] ∧ ∀ c ∈ month.data, pyIsSpace c = false)
    (hd : dd.data ≠ [] ∧ ∀ c ∈ dd.data, pyIsSpace c = false)
    (hy : yyyy.data ≠ [] ∧ ∀ c ∈ yyyy.data, pyIsSpace c = false)
    (hh : hms.data ≠ [] ∧ ∀ c ∈ hms.data, pyIsSpace c = false) :
    format_date (month ++ ", " ++ dd ++ " " ++ yyyy ++ " " ++ hms) =
      (dictGet? months_dict month).map
        (fun m => Value.dict [("date", m ++ "/" ++ dd ++ "/" ++ yyyy)]) := by
  rw [format_date, pySplitWs_date_shape month dd yyyy hms hm.2 hd hy hh]
  have hdrop : pyDropLast (String.mk (month.data ++ [','])) = month := by
    rw [pyDropLast]
    show String.mk ((month.data ++ [',']).dropLast) = month
    rw [List.dropLast_concat]
  simp only [hdrop]
  cases dictGet? months_dict month <;> rfl

theorem C7_format_date_months_witness :
    format_date ("March" ++ ", " ++ "05" ++ " " ++ "2001" ++ " " ++
        "00:00:00") =
      (dictGet? months_dict "March").map
        (fun m => Value.dict [("date", m ++ "/" ++ "05" ++ "/" ++ "2001")]) ∧
    format_date "March, 05 2001 00:00:00" =
      some (Value.dict [("date", "03/05/2001")]) ∧
    format_date ("Smarch" ++ ", " ++ "05" ++ " " ++ "2001" ++ " " ++
        "00:00:00") =
      (dictGet? months_dict "Smarch").map
        (fun m => Value.dict [("date", m ++ "/" ++ "05" ++ "/" ++ "2001")]) ∧
    format_date "Smarch, 05 2001 00:00:00" = Option.none := by
  have h1 := C7_format_date_months "March" "05" "2001" "00:00:00"
    (by refine ⟨by decide, ?_⟩; decide)
    (by refine ⟨by decide, ?_⟩; decide)
    (by refine ⟨by decide, ?_⟩; decide)
    (by refine ⟨by decide, ?_⟩; decide)
  have h2 := C7_format_date_months "Smarch" "05" "2001" "00:00:00"
    (by refine ⟨by decide, ?_⟩; decide)
    (by refine ⟨by decide, ?_⟩; decide)
    (by refine ⟨by decide, ?_⟩; decide)
    (by refine ⟨by decide, ?_⟩; decide)
  refine ⟨h1, ?_, h2, ?_⟩
  · decide
  · decide

/-! ## Behaviour of the new-hire arm -/

/-- Full characterization of `process_new` on a canonical record of the
shape produced by the normalizer (dict email and name sub-values, a
non-empty first name). -/
theorem process_new_spec (cfg : Cfg) (today pw : String) (r : Record)
    (ed nd : List (String × String)) (em fn ln tok : String)
    (toks : List String)
    (hdist : cfg.distinct = true)
    (hed : r.get? cfg.email_field = some (Value.dict ed))
    (hem : dictGet? ed "email" = some em)
    (hnm : r.get? cfg.name_field = some (Value.dict nd))
    (hfn : dictGet? nd "first" = some fn)
    (hln : dictGet? nd "last" = some ln)
    (htok : pySplitWs fn = tok :: toks) :
    ∃ r', process_new cfg today pw r = some ⟨r', [r'], [], [Value.dict nd]⟩ ∧
      r'.get? cfg.password_field = some (Value.str pw) ∧
      r'.get? cfg.status_field = some (Value.str "active") ∧
      r'.get? cfg.created_date_field = some (Value.str today) ∧
      r'.get? cfg.user_role_field = some (Value.list ["profile_7"]) ∧
      r'.get? "id" = r.get? "id" ∧
      r'.get? cfg.pk_field = r.get? cfg.pk_field ∧
      (em = "no email" →
        getEmailSub r' cfg.email_field =
          some (pyRemoveSpaces (tok ++ "." ++ ln ++ "@austintexas.gov"))) ∧
      (em ≠ "no email" → getEmailSub r' cfg.email_field = some em) := by
  obtain ⟨⟨hps, hpp, hpc, hpr, hpe, hpn, hpid⟩,
    ⟨hsp, hsc, hsr, hse, hsn, hsid⟩,
    ⟨hpc3, hpr3, hpe3, hpn3, hpid3⟩,
    ⟨hcr4, hce4, hcn4, hcid4⟩,
    ⟨hre5, hrn5, hrid5⟩, ⟨hen6, heid6⟩, hnid7⟩ := cfg.distinct_spec hdist
  set r1 := new_mutate cfg today pw r with hr1def
  have h_r1_email : r1.get? cfg.email_field = some (Value.dict ed) := by
    rw [hr1def, new_mutate, Record.get?_set_ne _ _ _ _ hre5,
      Record.get?_set_ne _ _ _ _ hce4, Record.get?_set_ne _ _ _ _ hse,
      Record.get?_set_ne _ _ _ _ hpe3]
    exact hed
  have h_r1_name : r1.get? cfg.name_field = some (Value.dict nd) := by
    rw [hr1def, new_mutate, Record.get?_set_ne _ _ _ _ hrn5,
      Record.get?_set_ne _ _ _ _ hcn4, Record.get?_set_ne _ _ _ _ hsn,
      Record.get?_set_ne _ _ _ _ hpn3]
    exact hnm
  have h_r1_id : r1.get? "id" = r.get? "id" := by
    rw [hr1def, new_mutate, Record.get?_set_ne _ _ _ _ hrid5,
      Record.get?_set_ne _ _ _ _ hcid4, Record.get?_set_ne _ _ _ _ hsid,
      Record.get?_set_ne _ _ _ _ hpid3]
  have h_r1_pk : r1.get? cfg.pk_field = r.get? cfg.pk_field := by
    rw [hr1def, new_mutate, Record.get?_set_ne _ _ _ _ (Ne.symm hpr),
      Record.get?_set_ne _ _ _ _ (Ne.symm hpc),
      Record.get?_set_ne _ _ _ _ (Ne.symm hps),
      Record.get?_set_ne _ _ _ _ (Ne.symm hpp)]
  have h_r1_pw : r1.get? cfg.password_field = some (Value.str pw) := by
    rw [hr1def, new_mutate, Record.get?_set_ne _ _ _ _ (Ne.symm hpr3),
      Record.get?_set_ne _ _ _ _ (Ne.symm hpc3),
      Record.get?_set_ne _ _ _ _ hsp]
    exact Record.get?_set_self r cfg.password_field (Value.str pw)
  have h_r1_st : r1.get? cfg.status_field = some (Value.str "active") := by
    rw [hr1def, new_mutate, Record.get?_set_ne _ _ _ _ (Ne.symm hsr),
      Record.get?_set_ne _ _ _ _ (Ne.symm hsc)]
    exact Record.get?_set_self _ cfg.status_field (Value.str "active")
  have h_r1_cd : r1.get? cfg.created_date_field = some (Value.str today) := by
    rw [hr1def, new_mutate, Record.get?_set_ne _ _ _ _ (Ne.symm hcr4)]
    exact Record.get?_set_self _ cfg.created_date_field (Value.str today)
  have h_r1_role : r1.get? cfg.user_role_field =
      some (Value.list ["profile_7"]) := by
    rw [hr1def, new_mutate]
    exact Record.get?_set_self _ cfg.user_role_field (Value.list ["profile_7"])
  have hge : getEmailSub r1 cfg.email_field = some em := by
    rw [getEmailSub]
    simp only [Option.bind_eq_bind, h_r1_email, Option.some_bind]
    exact hem
  rw [process_new, ← hr1def]
  by_cases hemno : em = "no email"
  · have hpe_eq : create_placeholder_email r1 cfg.name_field =
        some (pyRemoveSpaces (tok ++ "." ++ ln ++ "@austintexas.gov")) := by
      rw [create_placeholder_email]
      simp only [Option.bind_eq_bind, h_r1_name, Option.some_bind, hfn,
        hln, htok]
      rfl
    set pe := pyRemoveSpaces (tok ++ "." ++ ln ++ "@austintexas.gov")
      with hpedef
    have hset : setEmailSub r1 cfg.email_field pe =
        some (r1.set cfg.email_field
          (Value.dict (dictSet ed "email" pe))) := by
      rw [setEmailSub]
      simp only [Option.bind_eq_bind, h_r1_email, Option.some_bind]
    set r2 := r1.set cfg.email_field (Value.dict (dictSet ed "email" pe))
      with hr2def
    have h_r2_name : r2.get? cfg.name_field = some (Value.dict nd) := by
      rw [hr2def, Record.get?_set_ne _ _ _ _ hen6]
      exact h_r1_name
    have hemit : new_emit cfg r1 = some ⟨r2, [r2], [], [Value.dict nd]⟩ := by
      rw [new_emit]
      simp only [Option.bind_eq_bind, hge, Option.some_bind, if_pos hemno,
        hpe_eq, hset, ← hr2def, h_r2_name]
      rfl
    refine ⟨r2, hemit, ?_, ?_, ?_, ?_, ?_, ?_, ?_, ?_⟩
    · rw [hr2def, Record.get?_set_ne _ _ _ _ (Ne.symm hpe3)]
      exact h_r1_pw
    · rw [hr2def, Record.get?_set_ne _ _ _ _ (Ne.symm hse)]
      exact h_r1_st
    · rw [hr2def, Record.get?_set_ne _ _ _ _ (Ne.symm hce4)]
      exact h_r1_cd
    · rw [hr2def, Record.get?_set_ne _ _ _ _ (Ne.symm hre5)]
      exact h_r1_role
    · rw [hr2def, Record.get?_set_ne _ _ _ _ heid6]
      exact h_r1_id
    · rw [hr2def, Record.get?_set_ne _ _ _ _ (Ne.symm hpe)]
      exact h_r1_pk
    · intro _
      rw [getEmailSub]
      simp only [Option.bind_eq_bind, hr2def, Record.get?_set_self,
        Option.some_bind]
      exact dictGet?_dictSet_self ed "email" pe
    · intro hne
      exact absurd hemno hne
  · have hemit : new_emit cfg r1 = some ⟨r1, [r1], [], [Value.dict nd]⟩ := by
      rw [new_emit]
      simp only [Option.bind_eq_bind, hge, Option.some_bind, if_neg hemno,
        pure, Option.some_bind, h_r1_name]
    refine ⟨r1, hemit, h_r1_pw, h_r1_st, h_r1_cd, h_r1_role, h_r1_id,
      h_r1_pk, ?_, ?_⟩
    · intro heq
      exact absurd heq hemno
    · intro _
      exact hge

/-! ## Claim C1 (new hire creation) -/

/-- C1: for every canonical record whose primary-key value matches no
knack record, a successful `build_payload` run emits exactly one create
operation for it (carrying no knack identifier), with the password
field set to the generated password, the status field `"active"`, the
created-date field equal to the run date, the role field the default
Staff designation `["profile_7"]`, and — when the email sub-value is
the `"no email"` sentinel — the email replaced by the placeholder built
from the first whitespace token of the first name and the last name at
`@austintexas.gov` with spaces removed; the record's display name is
appended to the additions list. -/
theorem C1_new_hire_create (cfg : Cfg) (today pw : String)
    (ks l1 l2 : List Record) (r : Record) (pk : Value)
    (ed nd : List (String × String)) (em fn ln tok : String)
    (toks : List String) (res : BuildResult)
    (hdist : cfg.distinct = true)
    (hpk : r.get? cfg.pk_field = some pk)
    (hnomatch : find_knack_match cfg.pk_field pk ks = some Option.none)
    (hid : r.get? "id" = Option.none)
    (hed : r.get? cfg.email_field = some (Value.dict ed))
    (hem : dictGet? ed "email" = some em)
    (hnm : r.get? cfg.name_field = some (Value.dict nd))
    (hfn : dictGet? nd "first" = some fn)
    (hln : dictGet? nd "last" = some ln)
    (htok : pySplitWs fn = tok :: toks)
    (hrun : build_payload cfg today pw ks (l1 ++ r :: l2) = some res) :
    ∃ (o1 o2 : Phase1Out) (p2 : List Record × List Value) (r' : Record),
      phase1 cfg today pw ks l1 = some o1 ∧
      phase1 cfg today pw ks l2 = some o2 ∧
      process_hr cfg today pw ks r =
        some ⟨r', [r'], [], [Value.dict nd]⟩ ∧
      res.payload = o1.ops ++ [r'] ++ o2.ops ++ p2.1 ∧
      res.additions = o1.additions ++ [Value.dict nd] ++ o2.additions ∧
      r'.get? cfg.password_field = some (Value.str pw) ∧
      r'.get? cfg.status_field = some (Value.str "active") ∧
      r'.get? cfg.created_date_field = some (Value.str today) ∧
      r'.get? cfg.user_role_field = some (Value.list ["profile_7"]) ∧
      r'.get? "id" = Option.none ∧
      (em = "no email" →
        getEmailSub r' cfg.email_field =
          some (pyRemoveSpaces (tok ++ "." ++ ln ++ "@austintexas.gov"))) ∧
      (em ≠ "no email" → getEmailSub r' cfg.email_field = some em) := by
  obtain ⟨o1, s, o2, p2, h1, hs, h2, hp2, hpay, hupd, hadd, hina⟩ :=
    build_payload_decomp cfg today pw ks l1 l2 r res hrun
  obtain ⟨r', hnew, c1, c2, c3, c4, c5, c6, c7, c8⟩ :=
    process_new_spec cfg today pw r ed nd em fn ln tok toks hdist hed hem
      hnm hfn hln htok
  have hs' : process_hr cfg today pw ks r =
      some ⟨r', [r'], [], [Value.dict nd]⟩ := by
    rw [process_hr]
    simp only [Option.bind_eq_bind, hpk, Option.some_bind, hnomatch,
      Option.some_bind]
    exact hnew
  rw [hs] at hs'
  have hseq : s = ⟨r', [r'], [], [Value.dict nd]⟩ := Option.some_inj.mp hs'
  refine ⟨o1, o2, p2, r', h1, h2, hs' ▸ hs, ?_, ?_, c1, c2, c3, c4,
    c5.trans hid, c7, c8⟩
  · rw [hpay, hseq]
  · rw [hadd, hseq]

/-- The concrete unmatched canonical record for the C1 witness. -/
def c1_r : Record :=
  [("field_99", Value.nat 42),
   ("field_18", Value.dict [("email", "no email")]),
   ("field_17", Value.dict [("first", "Jane Q"), ("last", "Doe")])]

theorem C1_new_hire_create_witness :
    ∃ res, build_payload hrCfg "10/12/2026" "xK3!a" [] [c1_r] = some res ∧
    ∃ (o1 o2 : Phase1Out) (p2 : List Record × List Value) (r' : Record),
      phase1 hrCfg "10/12/2026" "xK3!a" [] [] = some o1 ∧
      phase1 hrCfg "10/12/2026" "xK3!a" [] [] = some o2 ∧
      process_hr hrCfg "10/12/2026" "xK3!a" [] c1_r =
        some ⟨r', [r'], [],
          [Value.dict [("first", "Jane Q"), ("last", "Doe")]]⟩ ∧
      res.payload = o1.ops ++ [r'] ++ o2.ops ++ p2.1 ∧
      res.additions = o1.additions ++
        [Value.dict [("first", "Jane Q"), ("last", "Doe")]] ++
        o2.additions ∧
      r'.get? hrCfg.password_field = some (Value.str "xK3!a") ∧
      r'.get? hrCfg.status_field = some (Value.str "active") ∧
      r'.get? hrCfg.created_date_field = some (Value.str "10/12/2026") ∧
      r'.get? hrCfg.user_role_field = some (Value.list ["profile_7"]) ∧
      r'.get? "id" = Option.none ∧
      ("no email" = "no email" →
        getEmailSub r' hrCfg.email_field =
          some (pyRemoveSpaces ("Jane" ++ "." ++ "Doe" ++
            "@austintexas.gov"))) ∧
      ("no email" ≠ "no email" →
        getEmailSub r' hrCfg.email_field = some "no email") := by
  refine ⟨_, rfl, ?_⟩
  exact C1_new_hire_create hrCfg "10/12/2026" "xK3!a" [] [] [] c1_r
    (Value.nat 42) [("email", "no email")]
    [("first", "Jane Q"), ("last", "Doe")] "no email" "Jane Q" "Doe"
    "Jane" ["Q"] _ (by decide) (by decide) (by decide) (by decide)
    (by decide) (by decide) (by decide) (by decide) (by decide)
    (by decide) rfl

/-! ## Claim C2 (orphan deactivation) -/

/-- Characterization of the deactivation-scan body on an orphaned knack
record: the deactivate operation — exactly the knack identifier plus
the status field set to `"inactive"` — is emitted iff the knack status
is not already `"inactive"` and the class field is not the contractor
marker `"Contract"`. -/
theorem process_knack_spec (cfg : Cfg) (hrs : List Record) (rk : Record)
    (pkv st cl kid nm : Value)
    (hsid : cfg.status_field ≠ "id")
    (hpk : rk.get? cfg.pk_field = some pkv)
    (hnomatch : hr_has_match cfg.pk_field pkv hrs = some false)
    (hst : rk.get? cfg.status_field = some st)
    (hcl : rk.get? cfg.class_field = some cl)
    (hkid : rk.get? "id" = some kid)
    (hnm : rk.get? cfg.name_field = some nm) :
    process_knack cfg hrs rk =
      some (if st ≠ Value.str "inactive" ∧ cl ≠ Value.str "Contract"
            then ⟨[[("id", kid), (cfg.status_field, Value.str "inactive")]],
                  [nm]⟩
            else ⟨[], []⟩) := by
  rw [process_knack]
  simp only [Option.bind_eq_bind, hpk, Option.some_bind, hnomatch,
    Option.some_bind, Bool.false_eq_true, if_false]
  by_cases h1 : st = Value.str "inactive"
  · simp [hst, h1]
  · simp only [hst, Option.some_bind, if_neg h1]
    by_cases h2 : cl = Value.str "Contract"
    · simp [hcl, h2]
    · simp only [hcl, Option.some_bind, if_neg h2, hkid, hnm]
      rw [if_pos ⟨h1, h2⟩]
      have hop : Record.set (Record.set [] "id" kid) cfg.status_field
          (Value.str "inactive") =
          [("id", kid), (cfg.status_field, Value.str "inactive")] := by
        simp [Record.set, Ne.symm hsid]
      rw [hop]
      rfl

/-- C2: for every knack record whose primary-key value matches no
canonical record, a successful `build_payload` run emits a deactivate
operation — consisting of exactly the knack identifier and the status
field set to `"inactive"` — iff the record's status is not already
`"inactive"` and its class field is not the contractor marker
`"Contract"`; orphaned contractors and already-disabled orphans
contribute no operation. -/
theorem C2_orphan_deactivate (cfg : Cfg) (today pw : String)
    (hrs k1 k2 : List Record) (rk : Record)
    (pkv st cl kid nm : Value) (res : BuildResult)
    (hdist : cfg.distinct = true)
    (hpk : rk.get? cfg.pk_field = some pkv)
    (hnomatch : hr_has_match cfg.pk_field pkv hrs = some false)
    (hst : rk.get? cfg.status_field = some st)
    (hcl : rk.get? cfg.class_field = some cl)
    (hkid : rk.get? "id" = some kid)
    (hnm : rk.get? cfg.name_field = some nm)
    (hrun : build_payload cfg today pw (k1 ++ rk :: k2) hrs = some res) :
    ∃ (o1 : Phase1Out) (q1 q2 : List Record × List Value) (s : KnackStep),
      phase1 cfg today pw (k1 ++ rk :: k2) hrs = some o1 ∧
      phase2 cfg o1.records k1 = some q1 ∧
      phase2 cfg o1.records k2 = some q2 ∧
      process_knack cfg o1.records rk = some s ∧
      s = (if st ≠ Value.str "inactive" ∧ cl ≠ Value.str "Contract"
           then ⟨[[("id", kid), (cfg.status_field, Value.str "inactive")]],
                 [nm]⟩
           else ⟨[], []⟩) ∧
      res.payload = o1.ops ++ (q1.1 ++ s.ops ++ q2.1) ∧
      res.inactivate = q1.2 ++ s.inactivate ++ q2.2 := by
  have hsid : cfg.status_field ≠ "id" := by
    obtain ⟨_, ⟨_, _, _, _, _, hsid⟩, _⟩ := cfg.distinct_spec hdist
    exact hsid
  rw [build_payload] at hrun
  simp only [Option.bind_eq_bind] at hrun
  cases h1 : phase1 cfg today pw (k1 ++ rk :: k2) hrs with
  | none => rw [h1] at hrun; simp at hrun
  | some o1 =>
    rw [h1, Option.some_bind] at hrun
    have hm1 : hr_has_match cfg.pk_field pkv o1.records = some false := by
      rw [hr_has_match_congr cfg.pk_field pkv o1.records hrs
        (phase1_records_pk cfg today pw (k1 ++ rk :: k2) hrs o1 hdist h1)]
      exact hnomatch
    have hpn := process_knack_spec cfg o1.records rk pkv st cl kid nm
      hsid hpk hm1 hst hcl hkid hnm
    rw [phase2_append] at hrun
    cases hq1 : phase2 cfg o1.records k1 with
    | none => rw [hq1] at hrun; simp at hrun
    | some q1 =>
      rw [hq1, Option.some_bind] at hrun
      cases hq2 : phase2 cfg o1.records k2 with
      | none =>
        rw [show phase2 cfg o1.records (rk :: k2) = Option.none by
          simp [phase2, hpn, hq2]] at hrun
        simp at hrun
      | some q2 =>
        set s := (if st ≠ Value.str "inactive" ∧ cl ≠ Value.str "Contract"
          then (⟨[[("id", kid), (cfg.status_field, Value.str "inactive")]],
                [nm]⟩ : KnackStep)
          else ⟨[], []⟩) with hsdef
        rw [show phase2 cfg o1.records (rk :: k2) =
            some (s.ops ++ q2.1, s.inactivate ++ q2.2) by
          rw [phase2, hpn]
          simp [hq2]] at hrun
        simp only [Option.map_some', Option.some_bind, pure,
          Option.some_inj] at hrun
        refine ⟨o1, q1, (q2.1, q2.2), s, rfl, hq1, by simpa using hq2,
          hpn, hsdef, ?_, ?_⟩
        · rw [← hrun]
          simp
        · rw [← hrun]
          simp

/-- The concrete orphaned knack records for the C2 witness: an active
non-contractor (deactivated) — the contractor and already-inactive
variants are covered by the `if` in the theorem's conclusion. -/
def c2_rk : Record :=
  [("id", Value.str "K9"), ("field_99", Value.nat 99),
   ("field_20", Value.str "active"), ("field_95", Value.str "A"),
   ("field_17", Value.dict [("first", "O"), ("last", "R")])]

theorem C2_orphan_deactivate_witness :
    ∃ res, build_payload hrCfg "10/12/2026" "xK3!a" [c2_rk] [] = some res ∧
    ∃ (o1 : Phase1Out) (q1 q2 : List Record × List Value) (s : KnackStep),
      phase1 hrCfg "10/12/2026" "xK3!a" [c2_rk] [] = some o1 ∧
      phase2 hrCfg o1.records [] = some q1 ∧
      phase2 hrCfg o1.records [] = some q2 ∧
      process_knack hrCfg o1.records c2_rk = some s ∧
      s = (if Value.str "active" ≠ Value.str "inactive" ∧
             Value.str "A" ≠ Value.str "Contract"
           then ⟨[[("id", Value.str "K9"),
                   (hrCfg.status_field, Value.str "inactive")]],
                 [Value.dict [("first", "O"), ("last", "R")]]⟩
           else ⟨[], []⟩) ∧
      res.payload = o1.ops ++ (q1.1 ++ s.ops ++ q2.1) ∧
      res.inactivate = q1.2 ++ s.inactivate ++ q2.2 := by
  refine ⟨_, rfl, ?_⟩
  exact C2_orphan_deactivate hrCfg "10/12/2026" "xK3!a" [] [] []
    c2_rk (Value.nat 99) (Value.str "active") (Value.str "A")
    (Value.str "K9") (Value.dict [("first", "O"), ("last", "R")]) _
    (by decide) (by decide) (by decide) (by decide) (by decide)
    (by decide) (by decide) rfl

/-! ## Claim C4 (status flip on update) -/

/-- Inversion of a successful `matched_emit`, separating the no-update
and update outcomes: no operation iff `is_different` returned `false`,
and on an update the emitted record is the mutated banner record,
possibly with the knack email substituted in its email sub-value. -/
theorem matched_emit_cases (cfg : Cfg) (r2 r_knack : Record) (s : HrStep)
    (h : matched_emit cfg r2 r_knack = some s) :
    (is_different r2 r_knack = some false ∧ s = ⟨r2, [], [], []⟩) ∨
    (is_different r2 r_knack = some true ∧ ∃ u nm, s = ⟨u, [u], [nm], []⟩ ∧
      (u = r2 ∨ ∃ d kem, r2.get? cfg.email_field = some (Value.dict d) ∧
        u = r2.set cfg.email_field (Value.dict (dictSet d "email" kem)))) := by
  rw [matched_emit] at h
  simp only [Option.bind_eq_bind] at h
  cases hdif : is_different r2 r_knack with
  | none => rw [hdif] at h; simp at h
  | some d =>
    rw [hdif, Option.some_bind] at h
    cases d with
    | false =>
      simp only [Bool.false_eq_true, if_false, pure, Option.some_inj] at h
      exact Or.inl ⟨rfl, h.symm⟩
    | true =>
      rw [if_pos rfl] at h
      refine Or.inr ⟨rfl, ?_⟩
      cases hem : getEmailSub r2 cfg.email_field with
      | none => rw [hem] at h; simp at h
      | some em =>
        rw [hem, Option.some_bind] at h
        by_cases hemno : em = "no email"
        · rw [if_pos hemno] at h
          cases hkem : getEmailSub r_knack cfg.email_field with
          | none => rw [hkem] at h; simp at h
          | some kem =>
            rw [hkem, Option.some_bind] at h
            cases hset : setEmailSub r2 cfg.email_field kem with
            | none => rw [hset] at h; simp at h
            | some r3 =>
              rw [hset, Option.some_bind] at h
              cases hnm : r3.get? cfg.name_field with
              | none => rw [hnm] at h; simp at h
              | some nm =>
                rw [hnm, Option.some_bind] at h
                simp only [pure, Option.some_inj] at h
                obtain ⟨dd, hdd, hr3⟩ := setEmailSub_eq _ _ _ _ hset
                exact ⟨r3, nm, h.symm, Or.inr ⟨dd, kem, hdd, hr3⟩⟩
        · rw [if_neg hemno] at h
          simp only [pure, Option.some_bind] at h
          cases hnm : r2.get? cfg.name_field with
          | none => rw [hnm] at h; simp at h
          | some nm =>
            rw [hnm, Option.some_bind] at h
            simp only [Option.some_inj] at h
            exact ⟨r2, nm, h.symm, Or.inl rfl⟩

/-- C4: for every matched canonical/knack pair, the update operation
(when one is emitted) carries the status field set to `"active"`
exactly when the knack record's status is `"inactive"` and its
separated flag is falsy; when it is not (in particular when the record
is flagged separated) the status field of the emitted record stays
absent — it is never flipped — and if additionally no compared field
differs, no operation is emitted at all. -/
theorem C4_status_flip_on_update (cfg : Cfg) (today pw : String)
    (ks l1 l2 : List Record) (r rk : Record)
    (pk kid st sep : Value) (res : BuildResult)
    (hdist : cfg.distinct = true)
    (hpk : r.get? cfg.pk_field = some pk)
    (hmatch : find_knack_match cfg.pk_field pk ks = some (some rk))
    (hkid : rk.get? "id" = some kid)
    (hst : rk.get? cfg.status_field = some st)
    (hsep : rk.get? cfg.separated_field = some sep)
    (hstat_r : r.get? cfg.status_field = Option.none)
    (hrun : build_payload cfg today pw ks (l1 ++ r :: l2) = some res) :
    ∃ (o1 o2 : Phase1Out) (p2 : List Record × List Value) (s : HrStep),
      phase1 cfg today pw ks l1 = some o1 ∧
      phase1 cfg today pw ks l2 = some o2 ∧
      process_hr cfg today pw ks r = some s ∧
      res.payload = o1.ops ++ s.ops ++ o2.ops ++ p2.1 ∧
      (∀ u, s.ops = [u] →
        ((st = Value.str "inactive" ∧ truthy sep = false) →
          u.get? cfg.status_field = some (Value.str "active")) ∧
        (¬(st = Value.str "inactive" ∧ truthy sep = false) →
          u.get? cfg.status_field = Option.none)) ∧
      (¬(st = Value.str "inactive" ∧ truthy sep = false) →
        is_different (r.set "id" kid) rk = some false → s.ops = []) := by
  obtain ⟨⟨hps, hpp, hpc, hpr, hpe, hpn, hpid⟩,
    ⟨hsp, hsc, hsr, hse, hsn, hsid⟩, _⟩ := cfg.distinct_spec hdist
  obtain ⟨o1, s, o2, p2, h1, hs, h2, hp2, hpay, hupd, hadd, hina⟩ :=
    build_payload_decomp cfg today pw ks l1 l2 r res hrun
  have hpm : process_matched cfg r rk = some s := by
    rw [process_hr] at hs
    simp only [Option.bind_eq_bind, hpk, Option.some_bind, hmatch,
      Option.some_bind] at hs
    exact hs
  rw [process_matched] at hpm
  simp only [Option.bind_eq_bind] at hpm
  cases hmut : matched_mutate cfg r rk with
  | none => rw [hmut] at hpm; simp at hpm
  | some r2 =>
    rw [hmut, Option.some_bind] at hpm
    have hr2cases :
        (st = Value.str "inactive" ∧ truthy sep = false ∧
          r2 = (r.set "id" kid).set cfg.status_field (Value.str "active")) ∨
        (¬(st = Value.str "inactive" ∧ truthy sep = false) ∧
          r2 = r.set "id" kid) := by
      by_cases hin : st = Value.str "inactive"
      · have heq := matched_mutate_eq_inactive cfg r rk kid sep hkid
          (hin ▸ hst) hsep
        rw [heq] at hmut
        cases hts : truthy sep with
        | true =>
          rw [hts] at hmut
          simp only [if_true, Option.some_inj] at hmut
          exact Or.inr ⟨fun hc => by simp at hc, hmut.symm⟩
        | false =>
          rw [hts] at hmut
          simp only [Bool.false_eq_true, if_false, Option.some_inj] at hmut
          exact Or.inl ⟨hin, rfl, hmut.symm⟩
      · have heq := matched_mutate_eq_other cfg r rk kid st hkid hst hin
        rw [heq] at hmut
        simp only [Option.some_inj] at hmut
        exact Or.inr ⟨fun hc => absurd hc.1 hin, hmut.symm⟩
    have hstatus_r2 :
        (st = Value.str "inactive" ∧ truthy sep = false →
          r2.get? cfg.status_field = some (Value.str "active")) ∧
        (¬(st = Value.str "inactive" ∧ truthy sep = false) →
          r2.get? cfg.status_field = Option.none) := by
      rcases hr2cases with ⟨hc1, hc2, hr2⟩ | ⟨hc, hr2⟩
      · refine ⟨fun _ => ?_, fun hn => absurd ⟨hc1, hc2⟩ hn⟩
        rw [hr2]
        exact Record.get?_set_self _ _ _
      · refine ⟨fun hcc => absurd hcc hc, fun _ => ?_⟩
        rw [hr2, Record.get?_set_ne _ _ _ _ (Ne.symm hsid)]
        exact hstat_r
    refine ⟨o1, o2, p2, s, h1, h2, hs, by rw [hpay], ?_, ?_⟩
    · intro u hops
      rcases matched_emit_cases cfg r2 rk s hpm with
        ⟨_, hseq⟩ | ⟨_, u', nm', hseq, hu'⟩
      · rw [hseq] at hops; simp at hops
      · rw [hseq] at hops
        simp only [List.cons.injEq, and_true] at hops
        have hu_status : u.get? cfg.status_field =
            r2.get? cfg.status_field := by
          rw [← hops]
          rcases hu' with rfl | ⟨d, kem, _, rfl⟩
          · rfl
          · exact Record.get?_set_ne _ _ _ _ (Ne.symm hse)
        exact ⟨fun hc => by rw [hu_status]; exact hstatus_r2.1 hc,
          fun hc => by rw [hu_status]; exact hstatus_r2.2 hc⟩
    · intro hnoflip hnodiff
      rcases hr2cases with ⟨hc1, hc2, _⟩ | ⟨_, hr2⟩
      · exact absurd ⟨hc1, hc2⟩ hnoflip
      · rcases matched_emit_cases cfg r2 rk s hpm with
          ⟨_, hseq⟩ | ⟨hdif, _⟩
        · rw [hseq]
        · rw [hr2] at hdif
          rw [hnodiff] at hdif
          simp at hdif

/-- The concrete canonical record for the C4 witness (differs from the
knack record in the job title). -/
def c4_r : Record :=
  [("field_99", Value.nat 7), ("field_230", Value.str "Engineer"),
   ("field_18", Value.dict [("email", "j@x.gov")]),
   ("field_17", Value.dict [("first", "J"), ("last", "D")])]

/-- The concrete knack record for the C4 witness: inactive, not
separated. -/
def c4_rk : Record :=
  [("id", Value.str "K1"), ("field_99", Value.nat 7),
   ("field_230", Value.str "Planner"),
   ("field_18", Value.dict [("email", "j@x.gov")]),
   ("field_17", Value.dict [("first", "J"), ("last", "D")]),
   ("field_20", Value.str "inactive"), ("field_402", Value.bool false),
   ("field_95", Value.str "A")]

theorem C4_status_flip_on_update_witness :
    ∃ res, build_payload hrCfg "10/12/2026" "xK3!a" [c4_rk] [c4_r] =
      some res ∧
    ∃ (o1 o2 : Phase1Out) (p2 : List Record × List Value) (s : HrStep),
      phase1 hrCfg "10/12/2026" "xK3!a" [c4_rk] [] = some o1 ∧
      phase1 hrCfg "10/12/2026" "xK3!a" [c4_rk] [] = some o2 ∧
      process_hr hrCfg "10/12/2026" "xK3!a" [c4_rk] c4_r = some s ∧
      res.payload = o1.ops ++ s.ops ++ o2.ops ++ p2.1 ∧
      (∀ u, s.ops = [u] →
        ((Value.str "inactive" = Value.str "inactive" ∧
            truthy (Value.bool false) = false) →
          u.get? hrCfg.status_field = some (Value.str "active")) ∧
        (¬(Value.str "inactive" = Value.str "inactive" ∧
            truthy (Value.bool false) = false) →
          u.get? hrCfg.status_field = Option.none)) ∧
      (¬(Value.str "inactive" = Value.str "inactive" ∧
          truthy (Value.bool false) = false) →
        is_different (c4_r.set "id" (Value.str "K1")) c4_rk = some false →
        s.ops = []) := by
  refine ⟨_, rfl, ?_⟩
  exact C4_status_flip_on_update hrCfg "10/12/2026" "xK3!a" [c4_rk] [] []
    c4_r c4_rk (Value.nat 7) (Value.str "K1") (Value.str "inactive")
    (Value.bool false) _ (by decide) (by decide) (by decide) (by decide)
    (by decide) (by decide) (by decide) rfl

/-! ## Claim C10 (reactivation alone triggers an update) -/

/-- C10 (implicit): for every matched canonical/knack pair in which the
knack status is `"inactive"` and the separated flag is falsy,
`build_payload` emits an update operation even when every mapped field
of the canonical record is identical to the knack record — the flip to
`"active"` is applied to the canonical record *before* `is_different`
runs, and that flipped status field alone makes the comparison report a
difference, so reactivation by itself suffices to trigger an update. -/
theorem C10_reactivation_triggers_update (cfg : Cfg) (today pw : String)
    (ks l1 l2 : List Record) (r rk : Record)
    (pk sep nm : Value) (kids em : String)
    (ed : List (String × String)) (res : BuildResult)
    (hdist : cfg.distinct = true)
    (hpk : r.get? cfg.pk_field = some pk)
    (hmatch : find_knack_match cfg.pk_field pk ks = some (some rk))
    (hkid : rk.get? "id" = some (Value.str kids))
    (hst : rk.get? cfg.status_field = some (Value.str "inactive"))
    (hsep : rk.get? cfg.separated_field = some sep)
    (hsept : truthy sep = false)
    (hidr : r.get? "id" = Option.none)
    (hstat_r : r.get? cfg.status_field = Option.none)
    (hcarr : carries_keys r rk = true)
    (hident : r.all (fun p => !(field_differs rk p)) = true)
    (hed : r.get? cfg.email_field = some (Value.dict ed))
    (hem : dictGet? ed "email" = some em)
    (hemne : em ≠ "no email")
    (hnm : r.get? cfg.name_field = some nm)
    (hrun : build_payload cfg today pw ks (l1 ++ r :: l2) = some res) :
    ∃ (o1 o2 : Phase1Out) (p2 : List Record × List Value) (u : Record),
      phase1 cfg today pw ks l1 = some o1 ∧
      phase1 cfg today pw ks l2 = some o2 ∧
      process_hr cfg today pw ks r = some ⟨u, [u], [nm], []⟩ ∧
      u = (r.set "id" (Value.str kids)).set cfg.status_field
        (Value.str "active") ∧
      u.get? cfg.status_field = some (Value.str "active") ∧
      res.payload = o1.ops ++ [u] ++ o2.ops ++ p2.1 ∧
      res.updates = o1.updates ++ [nm] ++ o2.updates := by
  obtain ⟨⟨hps, hpp, hpc, hpr, hpe, hpn, hpid⟩,
    ⟨hsp, hsc, hsr, hse, hsn, hsid⟩,
    ⟨hpc3, hpr3, hpe3, hpn3, hpid3⟩,
    ⟨hcr4, hce4, hcn4, hcid4⟩,
    ⟨hre5, hrn5, hrid5⟩, ⟨hen6, heid6⟩, hnid7⟩ := cfg.distinct_spec hdist
  obtain ⟨o1, s, o2, p2, h1, hs, h2, hp2, hpay, hupd, hadd, hina⟩ :=
    build_payload_decomp cfg today pw ks l1 l2 r res hrun
  set kid := Value.str kids with hkiddef
  set r2 := (r.set "id" kid).set cfg.status_field (Value.str "active")
    with hr2def
  have hmut_eq : matched_mutate cfg r rk = some r2 := by
    rw [matched_mutate_eq_inactive cfg r rk kid sep hkid hst hsep, hsept]
    simp [hr2def]
  have h_r2_email : r2.get? cfg.email_field = some (Value.dict ed) := by
    rw [hr2def, Record.get?_set_ne _ _ _ _ hse,
      Record.get?_set_ne _ _ _ _ (Ne.symm heid6)]
    exact hed
  have h_r2_name : r2.get? cfg.name_field = some nm := by
    rw [hr2def, Record.get?_set_ne _ _ _ _ hsn,
      Record.get?_set_ne _ _ _ _ (Ne.symm hnid7)]
    exact hnm
  have hid_app : r.set "id" kid = r ++ [("id", kid)] :=
    Record.set_of_get?_none r "id" kid hidr
  have hmid : Record.get? (r ++ [("id", kid)]) cfg.status_field =
      Option.none := by
    rw [Record.get?_append_right r [("id", kid)] cfg.status_field hstat_r]
    simp [Record.get?, Ne.symm hsid]
  have hr2_app : r2 = (r ++ [("id", kid)]) ++
      [(cfg.status_field, Value.str "active")] := by
    rw [hr2def, hid_app]
    exact Record.set_of_get?_none _ _ _ hmid
  have hcarr2 : carries_keys r2 rk = true := by
    rw [hr2_app, carries_keys, List.all_append, List.all_append]
    have h1c : carries_keys r rk = true := hcarr
    rw [carries_keys] at h1c
    rw [h1c]
    simp [carries_field, hkid, hst, hkiddef]
  have hany : r2.any (field_differs rk) = true := by
    rw [hr2_app, List.any_append, List.any_append]
    have hfr : r.any (field_differs rk) = false := by
      rw [List.any_eq_false]
      intro p hp
      have := List.all_eq_true.mp hident p hp
      simpa using this
    rw [hfr]
    simp [field_differs, hst, value_differs]
  have hdiff : is_different r2 rk = some true := by
    rw [is_different_eq_any r2 rk hcarr2, hany]
  have hge : getEmailSub r2 cfg.email_field = some em := by
    rw [getEmailSub]
    simp only [Option.bind_eq_bind, h_r2_email, Option.some_bind]
    exact hem
  have hemit : matched_emit cfg r2 rk = some ⟨r2, [r2], [nm], []⟩ := by
    rw [matched_emit]
    simp only [Option.bind_eq_bind, hdiff, Option.some_bind, if_pos rfl,
      hge, Option.some_bind, if_neg hemne, pure, Option.some_bind,
      h_r2_name]
    simp
  have hs' : process_hr cfg today pw ks r =
      some ⟨r2, [r2], [nm], []⟩ := by
    rw [process_hr]
    simp only [Option.bind_eq_bind, hpk, Option.some_bind, hmatch,
      Option.some_bind, process_matched, hmut_eq]
    exact hemit
  rw [hs] at hs'
  have hseq : s = ⟨r2, [r2], [nm], []⟩ := Option.some_inj.mp hs'
  have hstatus_u : r2.get? cfg.status_field = some (Value.str "active") := by
    rw [hr2def]
    exact Record.get?_set_self _ _ _
  refine ⟨o1, o2, p2, r2, h1, h2, hs' ▸ hs, hr2def, hstatus_u, ?_, ?_⟩
  · rw [hpay, hseq]
  · rw [hupd, hseq]

/-- The concrete canonical record for the C10 witness: all mapped
fields identical to the knack record. -/
def c10_r : Record :=
  [("field_99", Value.nat 7), ("field_230", Value.str "Engineer"),
   ("field_18", Value.dict [("email", "j@x.gov")]),
   ("field_17", Value.dict [("first", "J"), ("last", "D")])]

/-- The concrete knack record for the C10 witness: identical mapped
fields, inactive status, not separated. -/
def c10_rk : Record :=
  [("id", Value.str "K1"), ("field_99", Value.nat 7),
   ("field_230", Value.str "Engineer"),
   ("field_18", Value.dict [("email", "j@x.gov"), ("formatted", "x")]),
   ("field_17", Value.dict [("first", "J"), ("last", "D")]),
   ("field_20", Value.str "inactive"), ("field_402", Value.bool false),
   ("field_95", Value.str "A")]

theorem C10_reactivation_triggers_update_witness :
    ∃ res, build_payload hrCfg "10/12/2026" "xK3!a" [c10_rk] [c10_r] =
      some res ∧
    ∃ (o1 o2 : Phase1Out) (p2 : List Record × List Value) (u : Record),
      phase1 hrCfg "10/12/2026" "xK3!a" [c10_rk] [] = some o1 ∧
      phase1 hrCfg "10/12/2026" "xK3!a" [c10_rk] [] = some o2 ∧
      process_hr hrCfg "10/12/2026" "xK3!a" [c10_rk] c10_r =
        some ⟨u, [u], [Value.dict [("first", "J"), ("last", "D")]], []⟩ ∧
      u = (c10_r.set "id" (Value.str "K1")).set hrCfg.status_field
        (Value.str "active") ∧
      u.get? hrCfg.status_field = some (Value.str "active") ∧
      res.payload = o1.ops ++ [u] ++ o2.ops ++ p2.1 ∧
      res.updates = o1.updates ++
        [Value.dict [("first", "J"), ("last", "D")]] ++ o2.updates := by
  refine ⟨_, rfl, ?_⟩
  exact C10_reactivation_triggers_update hrCfg "10/12/2026" "xK3!a"
    [c10_rk] [] [] c10_r c10_rk (Value.nat 7) (Value.bool false)
    (Value.dict [("first", "J"), ("last", "D")]) "K1" "j@x.gov"
    [("email", "j@x.gov")] _ (by decide) (by decide) (by decide)
    (by decide) (by decide) (by decide) (by decide) (by decide)
    (by decide) (by decide) (by decide) (by decide) (by decide)
    (by decide) (by decide) rfl

end KnackBanner
